import Mathlib

/- Shallow embedding of the delivery-agent core:
   src/src/utils.py, src/src/graph.py, src/src/package_selector.py,
   src/src/route_optimizer.py and src/src/config.py.

   Coordinates are embedded as exact rationals and float arithmetic is
   idealized as exact real arithmetic.  The graph and optimization
   algorithms are written generically over a linearly ordered field `W`
   of "distance" values, together with a distance function
   `d : Point → Point → W`; the program itself is the instantiation
   `W := ℝ`, `d := euclidean_distance` (suffix `E` below).  The generic
   form is kept computable so that concrete executions can be carried
   out in `ℚ` and transported to `ℝ` along the order embedding `ℚ → ℝ`. -/

abbrev Point : Type := ℚ × ℚ

/-- utils.euclidean_distance: sqrt((x1-x2)^2 + (y1-y2)^2). -/
noncomputable def euclidean_distance (p q : Point) : ℝ :=
  Real.sqrt (((p.1 : ℝ) - (q.1 : ℝ)) ^ 2 + ((p.2 : ℝ) - (q.2 : ℝ)) ^ 2)

/-- Graph: `nodes` is the node-id → point dict (ids are exactly the list
    indices, matching the sequential id assignment of the source), `edges`
    the node-id → adjacency-list dict. -/
structure Graph (W : Type) where
  nodes : List Point
  edges : List (List (Nat × W))

-- config.py constants used by the core
def MAX_PACKAGES_PER_TRIP : Nat := 3
noncomputable def DISTANCE_WEIGHT : ℝ := 1 / 10
noncomputable def REWARD_WEIGHT : ℝ := 1
def USE_ASTAR : Bool := true

/-- The tolerance test of Graph._find_or_add_node:
    abs(node_pos[0] - point[0]) < 0.1 and abs(node_pos[1] - point[1]) < 0.1.
    Coordinates are rationals, so this is independent of the weight type. -/
def closeTo (node pt : Point) : Prop :=
  |node.1 - pt.1| < (1 / 10 : ℚ) ∧ |node.2 - pt.2| < (1 / 10 : ℚ)

instance (node pt : Point) : Decidable (closeTo node pt) :=
  inferInstanceAs (Decidable (_ ∧ _))

/-- Index of the first node within tolerance of `p` (the linear scan of
    Graph._find_or_add_node over the node dict in id order). -/
def findCloseIdx (p : Point) : List Point → Option Nat
  | [] => none
  | q :: qs => if closeTo q p then some 0 else (findCloseIdx p qs).map (· + 1)

variable {W : Type} [LinearOrderedField W]

/-- Graph._find_or_add_node: return the id of an existing close node, else
    append a fresh node (with empty adjacency list) and return its id. -/
def find_or_add_node (g : Graph W) (p : Point) : Nat × Graph W :=
  match findCloseIdx p g.nodes with
  | some i => (i, g)
  | none => (g.nodes.length, ⟨g.nodes ++ [p], g.edges ++ [[]]⟩)

/-- self.edges[i].append(e) -/
def add_edge (es : List (List (Nat × W))) (i : Nat) (e : Nat × W) :
    List (List (Nat × W)) :=
  es.set i (es.getD i [] ++ [e])

/-- One iteration of the street loop of Graph.build_from_road_data: resolve
    both endpoints (sequentially, the second lookup seeing any node added by
    the first), then add the two directed arcs with weight d(start, end). -/
def build_street (d : Point → Point → W) (g : Graph W) (st : Point × Point) :
    Graph W :=
  let s1 := find_or_add_node g st.1
  let s2 := find_or_add_node s1.2 st.2
  let w := d st.1 st.2
  ⟨s2.2.nodes, add_edge (add_edge s2.2.edges s1.1 (s2.1, w)) s2.1 (s1.1, w)⟩

/-- Graph.build_from_road_data: one node per input point (id = index), then
    fold over the street list. -/
def build_from_road_data (d : Point → Point → W) (points : List Point)
    (streets : List (Point × Point)) : Graph W :=
  streets.foldl (build_street d) ⟨points, List.replicate points.length []⟩

/-- First index (and element) minimizing `f`, ties to the earlier element:
    the behaviour of the min-tracking loops of the source (strict `<`
    against the running best). -/
def argminWith (f : α → W) : List α → Option (Nat × α)
  | [] => none
  | x :: xs =>
    match argminWith f xs with
    | none => some (0, x)
    | some iy => if f iy.2 < f x then some (iy.1 + 1, iy.2) else some (0, x)

/-- Graph.find_nearest_node. -/
def find_nearest_node (d : Point → Point → W) (g : Graph W) (p : Point) :
    Option Nat :=
  (argminWith (fun q => d p q) g.nodes).map Prod.fst

/-- Dict lookup in an association list where newer entries were consed on
    the left (newest binding wins, like assignment to a Python dict key). -/
def lookupNat : List (Nat × Nat) → Nat → Option Nat
  | [], _ => none
  | e :: es, k => if e.1 = k then some e.2 else lookupNat es k

def lookupW : List (Nat × W) → Nat → Option W
  | [], _ => none
  | e :: es, k => if e.1 = k then some e.2 else lookupW es k

/-- heapq.heappop on a list of (priority, node) pairs: remove the entry that
    is minimal in the lexicographic tuple order. -/
def popMin : List (W × Nat) → Option ((W × Nat) × List (W × Nat))
  | [] => none
  | x :: xs =>
    match popMin xs with
    | none => some (x, [])
    | some m =>
      if x.1 < m.1.1 ∨ (x.1 = m.1.1 ∧ x.2 ≤ m.1.2) then some (x, xs)
      else some (m.1, x :: m.2)

/-- Path reconstruction loop shared by astar and dijkstra:
    walk came_from from the goal, then append the start and reverse
    (rendered directly in accumulator style). Fuel bounds the while loop;
    it is called with more fuel than the dict can consume. -/
def reconstructPath (cf : List (Nat × Nat)) (start : Nat) :
    Nat → Nat → List Nat → List Nat
  | 0, _, acc => acc
  | fuel + 1, node, acc =>
    match lookupNat cf node with
    | some prev => reconstructPath cf start fuel prev (node :: acc)
    | none => start :: acc

/-- The neighbor relaxation loop of Graph.astar: state is
    (open list, came_from, g_score). -/
def astarRelax (h : Nat → W) (closed : List Nat) (current : Nat)
    (nbrs : List (Nat × W))
    (st : List (W × Nat) × List (Nat × Nat) × List (Nat × W)) :
    List (W × Nat) × List (Nat × Nat) × List (Nat × W) :=
  nbrs.foldl (fun st nb =>
    if nb.1 ∈ closed then st
    else
      let tg := (lookupW st.2.2 current).getD 0 + nb.2
      match lookupW st.2.2 nb.1 with
      | none =>
          (st.1 ++ [(tg + h nb.1, nb.1)], (nb.1, current) :: st.2.1,
            (nb.1, tg) :: st.2.2)
      | some old =>
          if tg < old then
            (st.1 ++ [(tg + h nb.1, nb.1)], (nb.1, current) :: st.2.1,
              (nb.1, tg) :: st.2.2)
          else st) st

/-- The while loop of Graph.astar.  An entry already closed is skipped
    (lazy deletion); the goal test happens on pop; otherwise the node is
    closed and its neighbors relaxed. -/
def astarLoop (g : Graph W) (h : Nat → W) (start goal : Nat) :
    Nat → List (W × Nat) → List (Nat × Nat) → List (Nat × W) → List Nat →
    Option (List Nat × W)
  | 0, _, _, _, _ => none
  | fuel + 1, openS, cameFrom, gScore, closed =>
    match popMin openS with
    | none => none
    | some pr =>
      if pr.1.2 ∈ closed then
        astarLoop g h start goal fuel pr.2 cameFrom gScore closed
      else if pr.1.2 = goal then
        match lookupW gScore goal with
        | some gv =>
            some (reconstructPath cameFrom start (cameFrom.length + 1) goal [], gv)
        | none => none
      else
        let closed' := pr.1.2 :: closed
        let st := astarRelax h closed' pr.1.2 (g.edges.getD pr.1.2 [])
          (pr.2, cameFrom, gScore)
        astarLoop g h start goal fuel st.1 st.2.1 st.2.2 closed'

/-- Fuel bound for the search loops: more than the number of queue entries
    that can ever be created (1 initial push plus at most one push per
    adjacency entry of a closed node). -/
def graphFuel (g : Graph W) : Nat :=
  g.nodes.length + (g.edges.map List.length).sum + 1

/-- Graph.astar: absent ids give None, start == goal short-circuits, else
    run the search with heuristic = d(node, goal position). -/
def astar (d : Point → Point → W) (g : Graph W) (start goal : Nat) :
    Option (List Nat × W) :=
  if ¬ start < g.nodes.length ∨ ¬ goal < g.nodes.length then none
  else if start = goal then some ([start], 0)
  else
    astarLoop g (fun n => d (g.nodes.getD n (0, 0)) (g.nodes.getD goal (0, 0)))
      start goal (graphFuel g) [(0, start)] [] [(start, 0)] []

/-- The neighbor relaxation loop of Graph.dijkstra: state is
    (priority queue, came_from, distances). -/
def dijkstraRelax (visited : List Nat) (current : Nat)
    (nbrs : List (Nat × W))
    (st : List (W × Nat) × List (Nat × Nat) × List (Nat × W)) :
    List (W × Nat) × List (Nat × Nat) × List (Nat × W) :=
  nbrs.foldl (fun st nb =>
    if nb.1 ∈ visited then st
    else
      let nd := (lookupW st.2.2 current).getD 0 + nb.2
      match lookupW st.2.2 nb.1 with
      | none =>
          (st.1 ++ [(nd, nb.1)], (nb.1, current) :: st.2.1, (nb.1, nd) :: st.2.2)
      | some old =>
          if nd < old then
            (st.1 ++ [(nd, nb.1)], (nb.1, current) :: st.2.1,
              (nb.1, nd) :: st.2.2)
          else st) st

/-- The while loop of Graph.dijkstra. -/
def dijkstraLoop (g : Graph W) (start goal : Nat) :
    Nat → List (W × Nat) → List (Nat × Nat) → List (Nat × W) → List Nat →
    Option (List Nat × W)
  | 0, _, _, _, _ => none
  | fuel + 1, pq, cameFrom, distances, visited =>
    match popMin pq with
    | none => none
    | some pr =>
      if pr.1.2 ∈ visited then
        dijkstraLoop g start goal fuel pr.2 cameFrom distances visited
      else if pr.1.2 = goal then
        match lookupW distances goal with
        | some dv =>
            some (reconstructPath cameFrom start (cameFrom.length + 1) goal [], dv)
        | none => none
      else
        let visited' := pr.1.2 :: visited
        let st := dijkstraRelax visited' pr.1.2 (g.edges.getD pr.1.2 [])
          (pr.2, cameFrom, distances)
        dijkstraLoop g start goal fuel st.1 st.2.1 st.2.2 visited'

/-- Graph.dijkstra. -/
def dijkstra (g : Graph W) (start goal : Nat) : Option (List Nat × W) :=
  if ¬ start < g.nodes.length ∨ ¬ goal < g.nodes.length then none
  else if start = goal then some ([start], 0)
  else dijkstraLoop g start goal (graphFuel g) [(0, start)] [] [(start, 0)] []

/-- Graph.find_path: resolve both positions to nearest nodes, run the chosen
    search, convert ids to coordinates, then splice in the literal endpoints
    when they are farther than the 0.1 tolerance from the snapped nodes
    (the extra distance uses exactly the source's index accesses:
    path_coords[1] after the prepend is the original head, and
    path_coords[-1] the original last element). -/
def find_path (d : Point → Point → W) (tol : W) (g : Graph W)
    (startPos goalPos : Point) (useAstar : Bool) : Option (List Point × W) :=
  match find_nearest_node d g startPos, find_nearest_node d g goalPos with
  | some sid, some gid =>
    match (if useAstar then astar d g sid gid else dijkstra g sid gid) with
    | none => none
    | some res =>
      let coords : List Point := res.1.map (fun i => g.nodes.getD i (0, 0))
      let st1 : List Point × W :=
        if tol < d startPos (coords.headD (0, 0)) then
          (startPos :: coords, res.2 + d startPos (coords.headD (0, 0)))
        else (coords, res.2)
      if tol < d goalPos (st1.1.getLastD (0, 0)) then
        some (st1.1 ++ [goalPos], st1.2 + d (st1.1.getLastD (0, 0)) goalPos)
      else some st1
  | _, _ => none

/-- Package (package_selector.Package): the catalog value. -/
structure Package (W : Type) where
  id : ℤ
  pickup_pos : Point
  dropoff_pos : Option Point
  reward : W
  delivered : Bool

/-- The catalog `self.packages` of PackageSelector: the id → Package dict,
    kept in insertion order (iteration over `.values()` is list order). -/
abbrev Catalog (W : Type) : Type := List (ℤ × Package W)

/-- PackageSelector.calculate_package_profit: -inf (⊥) when delivered or
    the dropoff is unset; otherwise both legs are path distances, with a
    fallback of BOTH legs to straight-line distance when EITHER leg has no
    graph path, and profit = reward*rewardWeight - distance*distanceWeight.
    `d`/`tol` instantiate to euclidean_distance/0.1 and `rw`/`dw` to the
    REWARD_WEIGHT/DISTANCE_WEIGHT constants. -/
def calculate_package_profit (d : Point → Point → W) (tol rw dw : W)
    (g : Graph W) (pkg : Package W) (cur : Point) : WithBot W :=
  if pkg.delivered = true ∨ pkg.dropoff_pos = none then ⊥
  else
    let drop := pkg.dropoff_pos.getD (0, 0)
    match find_path d tol g cur pkg.pickup_pos true,
        find_path d tol g pkg.pickup_pos drop true with
    | some r1, some r2 => ((pkg.reward * rw - (r1.2 + r2.2) * dw : W) : WithBot W)
    | _, _ =>
        ((pkg.reward * rw -
          (d cur pkg.pickup_pos + d pkg.pickup_pos drop) * dw : W) : WithBot W)

/-- List of elements tagged with their positions, starting at `n`
    (used to render Python's object-identity tests on catalog values:
    two values at different positions are different objects). -/
def idxFrom (n : Nat) : List α → List (Nat × α)
  | [] => []
  | x :: xs => (n, x) :: idxFrom (n + 1) xs

/-- The inner argmax loop of PackageSelector.select_packages_greedy: scan
    the catalog values in order, skipping delivered / already-selected
    (by position, i.e. object identity) / dropoff-less packages, keeping
    the first package whose profit strictly exceeds the running best AND
    is strictly positive.  State is (best_profit, best_pkg), starting at
    (-inf, None). -/
def greedyStep (P : Point → Package W → WithBot W) (cur : Point)
    (sel : List Nat) (st : WithBot W × Option (Nat × Package W))
    (ix : Nat × Package W) : WithBot W × Option (Nat × Package W) :=
  if ix.2.delivered = true ∨ ix.1 ∈ sel ∨ ix.2.dropoff_pos = none then st
  else if st.1 < P cur ix.2 ∧ 0 < P cur ix.2 then (P cur ix.2, some ix)
  else st

def select_best_candidate (P : Point → Package W → WithBot W) (cur : Point)
    (sel : List Nat) (vals : List (Package W)) : Option (Nat × Package W) :=
  ((idxFrom 0 vals).foldl (greedyStep P cur sel) (⊥, none)).2

/-- The outer for-loop of select_packages_greedy: up to `n` picks; stop at
    the first round with no (positive-profit) candidate; after a pick the
    scoring position becomes the pick's dropoff. -/
def select_packages_greedy_aux (P : Point → Package W → WithBot W)
    (vals : List (Package W)) : Nat → Point → List Nat → List (Nat × Package W)
  | 0, _, _ => []
  | n + 1, cur, sel =>
    match select_best_candidate P cur sel vals with
    | none => []
    | some ip =>
        ip :: select_packages_greedy_aux P vals n (ip.2.dropoff_pos.getD cur)
          (ip.1 :: sel)

/-- PackageSelector.select_packages_greedy. -/
def select_packages_greedy (d : Point → Point → W) (tol rw dw : W)
    (g : Graph W) (cat : Catalog W) (cur : Point) (maxPackages : Nat) :
    List (Package W) :=
  (select_packages_greedy_aux
      (fun pos pkg => calculate_package_profit d tol rw dw g pkg pos)
      (cat.map Prod.snd) maxPackages cur []).map Prod.snd

/-- PackageSelector.mark_delivered: only mutates when the id is a key of
    the catalog dict (silent no-op otherwise). -/
def mark_delivered (cat : Catalog W) (pid : ℤ) : Catalog W :=
  if pid ∈ cat.map Prod.fst then
    cat.map (fun e =>
      if e.1 = pid then (e.1, ⟨e.2.id, e.2.pickup_pos, e.2.dropoff_pos, e.2.reward, true⟩)
      else e)
  else cat

/-- PackageSelector.get_total_reward_earned:
    sum(pkg.reward for pkg in self.packages.values() if pkg.delivered). -/
def get_total_reward_earned (cat : Catalog W) : W :=
  cat.foldl (fun acc e => if e.2.delivered = true then acc + e.2.reward else acc) 0

/-- RouteOptimizer._distance: graph path distance, falling back to the
    straight-line distance when there is no path. -/
def route_opt_distance (d : Point → Point → W) (tol : W) (g : Graph W)
    (p q : Point) : W :=
  match find_path d tol g p q true with
  | some r => r.2
  | none => d p q

/-- RouteOptimizer._calculate_route_distance: accumulate
    current→pickup→dropoff for each package in order, moving the current
    position to each dropoff. -/
def calculate_route_distance (d : Point → Point → W) (tol : W) (g : Graph W)
    (pkgs : List (Package W)) (startPos : Point) : W :=
  (pkgs.foldl
    (fun (st : W × Point) pkg =>
      (st.1 + route_opt_distance d tol g st.2 pkg.pickup_pos +
        route_opt_distance d tol g pkg.pickup_pos (pkg.dropoff_pos.getD (0, 0)),
        pkg.dropoff_pos.getD (0, 0)))
    (0, startPos)).1

/-- RouteOptimizer.optimize_delivery_order's while loop: repeatedly take
    (and remove) the unvisited package with the nearest pickup — Python's
    min keeps the first minimum, and list.remove removes exactly that
    object — then move to its dropoff. -/
def optimize_delivery_order_aux (d : Point → Point → W) (tol : W) (g : Graph W) :
    Nat → Point → List (Package W) → List (Package W)
  | 0, _, _ => []
  | n + 1, cur, unvisited =>
    match argminWith (fun p => route_opt_distance d tol g cur p.pickup_pos)
        unvisited with
    | none => []
    | some ip =>
        ip.2 :: optimize_delivery_order_aux d tol g n
          (ip.2.dropoff_pos.getD cur) (unvisited.eraseIdx ip.1)

/-- RouteOptimizer.optimize_delivery_order (nearest-neighbor heuristic). -/
def optimize_delivery_order (d : Point → Point → W) (tol : W) (g : Graph W)
    (pkgs : List (Package W)) (startPos : Point) : List (Package W) :=
  if pkgs.isEmpty = true then []
  else if pkgs.length = 1 then pkgs
  else optimize_delivery_order_aux d tol g pkgs.length startPos pkgs

/-- itertools.permutations: all permutations, in lexicographic order of the
    chosen index sequences (first element varies slowest, chosen in input
    order). `selections l` pairs each element with the remaining list. -/
def selections : List α → List (α × List α)
  | [] => []
  | x :: xs => (x, xs) :: (selections xs).map (fun p => (p.1, x :: p.2))

def permutationsPyAux : Nat → List α → List (List α)
  | 0, _ => [[]]
  | n + 1, l =>
    (selections l).flatMap (fun p => (permutationsPyAux n p.2).map (p.1 :: ·))

def permutationsPy (l : List α) : List (List α) :=
  permutationsPyAux l.length l

/-- RouteOptimizer.optimize_delivery_order_bruteforce: up to 6 packages,
    try every permutation keeping the strictly best (hence first-minimal)
    total route distance, starting from best = (packages, inf); more than
    6 packages delegates to the nearest-neighbor heuristic. -/
def optimize_delivery_order_bruteforce (d : Point → Point → W) (tol : W)
    (g : Graph W) (pkgs : List (Package W)) (startPos : Point) :
    List (Package W) :=
  if pkgs.isEmpty = true then []
  else if pkgs.length = 1 then pkgs
  else if 6 < pkgs.length then optimize_delivery_order d tol g pkgs startPos
  else
    ((permutationsPy pkgs).foldl
      (fun (best : List (Package W) × WithTop W) perm =>
        if ((calculate_route_distance d tol g perm startPos : W) : WithTop W) < best.2
        then (perm, ((calculate_route_distance d tol g perm startPos : W) : WithTop W))
        else best)
      (pkgs, ⊤)).1

/- The program proper: the `W := ℝ`, `d := euclidean_distance`,
   `tol := 0.1` instantiations. -/

noncomputable def build_from_road_dataE (points : List Point)
    (streets : List (Point × Point)) : Graph ℝ :=
  build_from_road_data euclidean_distance points streets

noncomputable def astarE (g : Graph ℝ) (start goal : Nat) :
    Option (List Nat × ℝ) :=
  astar euclidean_distance g start goal

noncomputable def dijkstraE (g : Graph ℝ) (start goal : Nat) :
    Option (List Nat × ℝ) :=
  dijkstra g start goal

noncomputable def find_pathE (g : Graph ℝ) (startPos goalPos : Point)
    (useAstar : Bool) : Option (List Point × ℝ) :=
  find_path euclidean_distance (1 / 10) g startPos goalPos useAstar

noncomputable def calculate_package_profitE (g : Graph ℝ) (pkg : Package ℝ)
    (cur : Point) : WithBot ℝ :=
  calculate_package_profit euclidean_distance (1 / 10) REWARD_WEIGHT
    DISTANCE_WEIGHT g pkg cur

noncomputable def select_packages_greedyE (g : Graph ℝ) (cat : Catalog ℝ)
    (cur : Point) (maxPackages : Nat) : List (Package ℝ) :=
  select_packages_greedy euclidean_distance (1 / 10) REWARD_WEIGHT
    DISTANCE_WEIGHT g cat cur maxPackages

noncomputable def optimize_delivery_orderE (g : Graph ℝ)
    (pkgs : List (Package ℝ)) (startPos : Point) : List (Package ℝ) :=
  optimize_delivery_order euclidean_distance (1 / 10) g pkgs startPos

noncomputable def optimize_delivery_order_bruteforceE (g : Graph ℝ)
    (pkgs : List (Package ℝ)) (startPos : Point) : List (Package ℝ) :=
  optimize_delivery_order_bruteforce euclidean_distance (1 / 10) g pkgs startPos

noncomputable def calculate_route_distanceE (g : Graph ℝ)
    (pkgs : List (Package ℝ)) (startPos : Point) : ℝ :=
  calculate_route_distance euclidean_distance (1 / 10) g pkgs startPos

/- Shared auxiliary facts about the Euclidean distance. -/

theorem euclid_x (p q : Point) (hp : p.2 = 0) (hq : q.2 = 0) :
    euclidean_distance p q = |(p.1 : ℝ) - (q.1 : ℝ)| := by
  simp only [euclidean_distance, hp, hq]
  norm_num
  exact Real.sqrt_sq_eq_abs _

theorem euclidean_distance_nonneg (p q : Point) : 0 ≤ euclidean_distance p q :=
  Real.sqrt_nonneg _

theorem euclidean_distance_self (p : Point) : euclidean_distance p p = 0 := by
  simp [euclidean_distance]

/- C1: the concrete road snapshot on which A* and Dijkstra disagree.
   All points lie on the x-axis.  The streets' endpoints are deduplicated
   into nodes 0.15 resp. 9.85 while lying closer together, so the edge
   2 -- 3 weighs 9.52 < 9.7, the inter-node distance: the Euclidean
   heuristic overestimates and A* returns the direct 0 -- 1 edge of
   weight 10 although the route 0-2-3-1 costs only 9.83. -/

def c1points : List Point := [(0, 0), (10, 0), (15/100, 0), (985/100, 0)]

def c1streets : List (Point × Point) :=
  [((0, 0), (10, 0)), ((0, 0), (16/100, 0)),
   ((24/100, 0), (976/100, 0)), ((985/100, 0), (10, 0))]

noncomputable def c1G : Graph ℝ := build_from_road_dataE c1points c1streets

noncomputable def c1edges : List (List (Nat × ℝ)) :=
  [[(1, 10), (2, 16/100)], [(0, 10), (3, 15/100)],
   [(0, 16/100), (3, 952/100)], [(2, 952/100), (1, 15/100)]]

noncomputable def c1Gl : Graph ℝ :=
  ⟨[(0, 0), (10, 0), (15/100, 0), (985/100, 0)], c1edges⟩

theorem c1G_eq : c1G = c1Gl := by
  simp only [c1G, build_from_road_dataE, build_from_road_data, c1points, c1streets]
  norm_num [build_street, find_or_add_node, findCloseIdx, closeTo, add_edge,
    euclid_x, abs_lt, abs_of_nonneg, List.replicate, c1Gl, c1edges]

theorem c1_dijkstra : dijkstraE c1Gl 0 1 = some ([0, 2, 3, 1], 983/100) := by
  have e0 : dijkstraE c1Gl 0 1 = dijkstraLoop c1Gl 0 1 13 [(0, 0)] [] [(0, 0)] [] := by
    rw [dijkstraE, dijkstra]
    norm_num [graphFuel, c1Gl, c1edges]
  have e1 : dijkstraLoop c1Gl 0 1 13 [(0, 0)] [] [(0, 0)] [] =
      dijkstraLoop c1Gl 0 1 12 [(10, 1), (16/100, 2)] [(2, 0), (1, 0)]
        [(2, 16/100), (1, 10), (0, 0)] [0] := by
    rw [dijkstraLoop.eq_def]
    norm_num [popMin, dijkstraRelax, lookupW, List.getD, c1Gl, c1edges]
  have e2 : dijkstraLoop c1Gl 0 1 12 [(10, 1), (16/100, 2)] [(2, 0), (1, 0)]
        [(2, 16/100), (1, 10), (0, 0)] [0] =
      dijkstraLoop c1Gl 0 1 11 [(10, 1), (968/100, 3)] [(3, 2), (2, 0), (1, 0)]
        [(3, 968/100), (2, 16/100), (1, 10), (0, 0)] [2, 0] := by
    rw [dijkstraLoop.eq_def]
    norm_num [popMin, dijkstraRelax, lookupW, List.getD, c1Gl, c1edges]
  have e3 : dijkstraLoop c1Gl 0 1 11 [(10, 1), (968/100, 3)] [(3, 2), (2, 0), (1, 0)]
        [(3, 968/100), (2, 16/100), (1, 10), (0, 0)] [2, 0] =
      dijkstraLoop c1Gl 0 1 10 [(10, 1), (983/100, 1)] [(1, 3), (3, 2), (2, 0), (1, 0)]
        [(1, 983/100), (3, 968/100), (2, 16/100), (1, 10), (0, 0)] [3, 2, 0] := by
    rw [dijkstraLoop.eq_def]
    norm_num [popMin, dijkstraRelax, lookupW, List.getD, c1Gl, c1edges]
  have e4 : dijkstraLoop c1Gl 0 1 10 [(10, 1), (983/100, 1)] [(1, 3), (3, 2), (2, 0), (1, 0)]
        [(1, 983/100), (3, 968/100), (2, 16/100), (1, 10), (0, 0)] [3, 2, 0] =
      some ([0, 2, 3, 1], 983/100) := by
    rw [dijkstraLoop.eq_def]
    norm_num [popMin, lookupW, lookupNat, reconstructPath, List.getD]
  rw [e0, e1, e2, e3, e4]

theorem c1_astar : astarE c1Gl 0 1 = some ([0, 1], 10) := by
  have e0 : astarE c1Gl 0 1 = astarLoop c1Gl
      (fun n => euclidean_distance (c1Gl.nodes.getD n (0, 0)) (c1Gl.nodes.getD 1 (0, 0)))
      0 1 13 [(0, 0)] [] [(0, 0)] [] := by
    rw [astarE, astar]
    norm_num [graphFuel, c1Gl, c1edges]
  rw [e0]
  have e1 : astarLoop c1Gl
      (fun n => euclidean_distance (c1Gl.nodes.getD n (0, 0)) (c1Gl.nodes.getD 1 (0, 0)))
      0 1 13 [(0, 0)] [] [(0, 0)] [] =
    astarLoop c1Gl
      (fun n => euclidean_distance (c1Gl.nodes.getD n (0, 0)) (c1Gl.nodes.getD 1 (0, 0)))
      0 1 12 [(10, 1), (1001/100, 2)] [(2, 0), (1, 0)]
      [(2, 16/100), (1, 10), (0, 0)] [0] := by
    rw [astarLoop.eq_def]
    norm_num [popMin, astarRelax, lookupW, List.getD, c1Gl, c1edges, euclid_x,
      abs_lt, abs_of_nonneg, abs_sub_comm]
  rw [e1]
  have e2 : astarLoop c1Gl
      (fun n => euclidean_distance (c1Gl.nodes.getD n (0, 0)) (c1Gl.nodes.getD 1 (0, 0)))
      0 1 12 [(10, 1), (1001/100, 2)] [(2, 0), (1, 0)]
      [(2, 16/100), (1, 10), (0, 0)] [0] = some ([0, 1], 10) := by
    rw [astarLoop.eq_def]
    norm_num [popMin, lookupW, lookupNat, reconstructPath, List.getD]
  rw [e2]

/-- C1 counterexample: in the graph built from the road data above, both
    node ids 0 and 1 are present, yet astar(0,1) returns distance 10 while
    dijkstra(0,1) returns distance 9.83 — not equal (and far beyond
    floating tolerance), refuting the claimed equivalence. -/
theorem C1_counterexample :
    astarE c1G 0 1 = some ([0, 1], 10) ∧
    dijkstraE c1G 0 1 = some ([0, 2, 3, 1], 983/100) ∧
    (10 : ℝ) ≠ 983/100 := by
  rw [c1G_eq]
  refine ⟨c1_astar, c1_dijkstra, by norm_num⟩

/-- C1 (amended): astar and dijkstra do agree whenever the start or goal id
    is absent from the graph (both return the not-found result) and whenever
    start = goal (both return the trivial single-node zero-distance path);
    but on built graphs their distances need not be equal, because the
    0.1-tolerance node deduplication can make an edge weight smaller than
    the Euclidean distance between its endpoints' node points, so the A*
    heuristic is not admissible and A* can return a strictly larger
    distance than Dijkstra (see the counterexample). -/
theorem C1_astar_dijkstra_agree_on_guards (g : Graph ℝ) (a b : Nat)
    (h : ¬ a < g.nodes.length ∨ ¬ b < g.nodes.length ∨ a = b) :
    astarE g a b = dijkstraE g a b := by
  rw [astarE, dijkstraE, astar, dijkstra]
  by_cases hv : ¬ a < g.nodes.length ∨ ¬ b < g.nodes.length
  · rw [if_pos hv, if_pos hv]
  · have hab : a = b := by tauto
    rw [if_neg hv, if_neg hv, if_pos hab, if_pos hab]

/-- C1 witness: the guard-case agreement at a concrete input. -/
theorem C1_witness :
    ((0 : Nat) = 0) ∧ astarE ⟨[], []⟩ 0 0 = dijkstraE ⟨[], []⟩ 0 0 :=
  ⟨rfl, C1_astar_dijkstra_agree_on_guards ⟨[], []⟩ 0 0 (Or.inr (Or.inr rfl))⟩

/-- C10: for every graph and pair of node ids, if the start id or the goal
    id is not a node of the graph (node ids are exactly the indices below
    nodes.length), both astar and dijkstra return the not-found result None
    (by the initial membership guard) rather than raising an error. -/
theorem C10_absent_ids_give_none (g : Graph ℝ) (a b : Nat)
    (h : ¬ a < g.nodes.length ∨ ¬ b < g.nodes.length) :
    astarE g a b = none ∧ dijkstraE g a b = none := by
  rw [astarE, dijkstraE, astar, dijkstra, if_pos h, if_pos h]
  exact ⟨rfl, rfl⟩

/-- C10 witness: a one-node graph queried with the absent id 5. -/
theorem C10_witness :
    (¬ 5 < (Graph.mk (W := ℝ) [(0, 0)] [[]]).nodes.length ∨
      ¬ 0 < (Graph.mk (W := ℝ) [(0, 0)] [[]]).nodes.length) ∧
    astarE ⟨[(0, 0)], [[]]⟩ 5 0 = none ∧ dijkstraE ⟨[(0, 0)], [[]]⟩ 5 0 = none :=
  ⟨Or.inl (by decide), C10_absent_ids_give_none ⟨[(0, 0)], [[]]⟩ 5 0 (Or.inl (by decide))⟩

/-- C5 counterexample: marking an id absent from the catalog is a silent
    no-op — the call is total (no error is raised) and returns the catalog
    unchanged, contradicting the claim that it fails loudly. -/
theorem C5_counterexample :
    mark_delivered (W := ℝ) [(1, ⟨1, (0, 0), some (1, 0), 100, false⟩)] 99 =
      [(1, ⟨1, (0, 0), some (1, 0), 100, false⟩)] := by
  rw [mark_delivered, if_neg]
  simp

theorem mark_delivered_absent_noop (cat : Catalog W) (pid : ℤ)
    (h : pid ∉ cat.map Prod.fst) : mark_delivered cat pid = cat := by
  rw [mark_delivered, if_neg h]

/-- C5 (amended): calling mark_delivered with a package id absent from the
    catalog raises no error and silently leaves the catalog unchanged (the
    mutation is guarded by a membership test). -/
theorem C5_mark_delivered_absent_is_noop (cat : Catalog ℝ) (pid : ℤ)
    (h : pid ∉ cat.map Prod.fst) : mark_delivered cat pid = cat :=
  mark_delivered_absent_noop cat pid h

/-- C5 witness: the no-op at a concrete catalog and absent id. -/
theorem C5_witness :
    (99 : ℤ) ∉ ([(1, ⟨1, (0, 0), some (1, 0), 100, false⟩)] : Catalog ℝ).map Prod.fst ∧
    mark_delivered (W := ℝ) [(1, ⟨1, (0, 0), some (1, 0), 100, false⟩)] 99 =
      [(1, ⟨1, (0, 0), some (1, 0), 100, false⟩)] :=
  ⟨by simp, C5_mark_delivered_absent_is_noop _ 99 (by simp)⟩

theorem mark_delivered_map (cat : Catalog W) (pid : ℤ) (h : pid ∈ cat.map Prod.fst) :
    mark_delivered cat pid = cat.map (fun e =>
      if e.1 = pid then (e.1, ⟨e.2.id, e.2.pickup_pos, e.2.dropoff_pos, e.2.reward, true⟩)
      else e) := by
  rw [mark_delivered, if_pos h]

theorem mark_delivered_idem (cat : Catalog W) (pid : ℤ) :
    mark_delivered (mark_delivered cat pid) pid = mark_delivered cat pid := by
  by_cases h : pid ∈ cat.map Prod.fst
  · have h' : pid ∈ (mark_delivered cat pid).map Prod.fst := by
      rw [mark_delivered_map cat pid h, List.map_map]
      have he : (Prod.fst ∘ fun e : ℤ × Package W =>
          if e.1 = pid then (e.1, ⟨e.2.id, e.2.pickup_pos, e.2.dropoff_pos, e.2.reward, true⟩)
          else e) = Prod.fst := by
        funext e
        by_cases hc : e.1 = pid <;> simp [hc]
      rw [he]
      exact h
    rw [mark_delivered_map _ pid h', mark_delivered_map cat pid h, List.map_map]
    apply List.map_congr_left
    intro e _
    by_cases hc : e.1 = pid <;> simp [hc]
  · rw [mark_delivered_absent_noop cat pid h, mark_delivered_absent_noop cat pid h]

/-- C9: marking a package id that is present in the catalog twice is
    idempotent: the package's delivered flag is true, no error is raised
    (the operation is total), and the total reward earned after the second
    call equals the total after the first (no double counting). -/
theorem C9_mark_delivered_twice (cat : Catalog ℝ) (pid : ℤ)
    (h : pid ∈ cat.map Prod.fst) :
    (∀ e ∈ mark_delivered (mark_delivered cat pid) pid,
        e.1 = pid → e.2.delivered = true) ∧
    mark_delivered (mark_delivered cat pid) pid = mark_delivered cat pid ∧
    get_total_reward_earned (mark_delivered (mark_delivered cat pid) pid) =
      get_total_reward_earned (mark_delivered cat pid) := by
  refine ⟨?_, mark_delivered_idem cat pid, by rw [mark_delivered_idem]⟩
  intro e he hpid
  rw [mark_delivered_idem, mark_delivered_map cat pid h] at he
  rcases List.mem_map.mp he with ⟨a, _, rfl_eq⟩
  by_cases hc : a.1 = pid
  · rw [if_pos hc] at rfl_eq
    rw [← rfl_eq]
  · rw [if_neg hc] at rfl_eq
    rw [← rfl_eq] at hpid
    exact absurd hpid hc

/-- C9 witness: both calls at a concrete one-package catalog. -/
theorem C9_witness :
    (1 : ℤ) ∈ ([(1, ⟨1, (0, 0), some (1, 0), 100, false⟩)] : Catalog ℝ).map Prod.fst ∧
    mark_delivered (mark_delivered (W := ℝ)
        [(1, ⟨1, (0, 0), some (1, 0), 100, false⟩)] 1) 1 =
      mark_delivered (W := ℝ) [(1, ⟨1, (0, 0), some (1, 0), 100, false⟩)] 1 :=
  ⟨by simp, (C9_mark_delivered_twice [(1, ⟨1, (0, 0), some (1, 0), 100, false⟩)] 1 (by simp)).2.1⟩

theorem argminWith_isSome (f : α → W) (l : List α) (h : l ≠ []) :
    ∃ ia, argminWith f l = some ia := by
  cases l with
  | nil => exact absurd rfl h
  | cons x xs =>
    cases hm : argminWith f xs with
    | none => exact ⟨(0, x), by rw [argminWith, hm]⟩
    | some iy =>
      by_cases hc : f iy.2 < f x
      · exact ⟨(iy.1 + 1, iy.2), by rw [argminWith, hm]; simp [hc]⟩
      · exact ⟨(0, x), by rw [argminWith, hm]; simp [hc]⟩

theorem argminWith_spec (f : α → W) (l : List α) (ia : Nat × α)
    (h : argminWith f l = some ia) : ia.1 < l.length ∧ l.get? ia.1 = some ia.2 := by
  induction l generalizing ia with
  | nil => exact absurd h (by rw [argminWith]; exact Option.noConfusion)
  | cons x xs ih =>
    cases hm : argminWith f xs with
    | none =>
      rw [argminWith, hm] at h
      cases h
      exact ⟨Nat.succ_pos _, rfl⟩
    | some iy =>
      rw [argminWith, hm] at h
      dsimp only at h
      by_cases hc : f iy.2 < f x
      · rw [if_pos hc] at h
        cases h
        have hs := ih iy hm
        exact ⟨Nat.succ_lt_succ hs.1, hs.2⟩
      · rw [if_neg hc] at h
        cases h
        exact ⟨Nat.succ_pos _, rfl⟩

theorem find_nearest_node_some (g : Graph W) (d : Point → Point → W) (p : Point)
    (h : g.nodes ≠ []) :
    ∃ nid, find_nearest_node d g p = some nid ∧ nid < g.nodes.length := by
  obtain ⟨ia, hia⟩ := argminWith_isSome (fun q => d p q) g.nodes h
  exact ⟨ia.1, by rw [find_nearest_node, hia]; rfl,
    (argminWith_spec _ _ _ hia).1⟩

theorem search_self (g : Graph W) (d : Point → Point → W) (nid : Nat)
    (hlt : nid < g.nodes.length) (ua : Bool) :
    (if ua then astar d g nid nid else dijkstra g nid nid) = some ([nid], 0) := by
  cases ua <;> simp [astar, dijkstra, hlt]

/-- C6 (amended): for every graph with at least one node and every point p,
    find_path(p, p) resolves p to its nearest node n and returns: the
    single-point zero-distance path [n] when p lies within the 0.1 splicing
    tolerance of n; otherwise the three-point path [p, n, p] with distance
    d(p,n) + d(n,p) = 2·d(p,n).  (On an empty graph it returns None; the
    claimed single-point zero-distance result only holds in the
    within-tolerance case — see the counterexample.) -/
theorem C6_find_path_self (g : Graph ℝ) (p : Point) (ua : Bool)
    (h : g.nodes ≠ []) :
    ∃ nid, find_nearest_node euclidean_distance g p = some nid ∧
      ((euclidean_distance p (g.nodes.getD nid (0, 0)) ≤ 1 / 10 →
          find_pathE g p p ua = some ([g.nodes.getD nid (0, 0)], 0)) ∧
       (1 / 10 < euclidean_distance p (g.nodes.getD nid (0, 0)) →
          find_pathE g p p ua =
            some ([p, g.nodes.getD nid (0, 0), p],
              euclidean_distance p (g.nodes.getD nid (0, 0)) +
                euclidean_distance (g.nodes.getD nid (0, 0)) p))) := by
  obtain ⟨nid, hfind, hlt⟩ := find_nearest_node_some g euclidean_distance p h
  refine ⟨nid, hfind, ?_, ?_⟩
  · intro hd
    rw [find_pathE, find_path, hfind]
    dsimp only
    rw [search_self g euclidean_distance nid hlt ua]
    dsimp only [List.map_cons, List.map_nil, List.headD_cons, List.getLastD]
    rw [if_neg (not_lt.mpr hd)]
    simp [not_lt.mpr hd]
    simpa using hd
  · intro hd
    rw [find_pathE, find_path, hfind]
    dsimp only
    rw [search_self g euclidean_distance nid hlt ua]
    dsimp only [List.map_cons, List.map_nil, List.headD_cons, List.getLastD]
    rw [if_pos hd]
    simp [hd]
    simpa using hd

/-- C6 witness: the within-tolerance case at a one-node graph with p equal
    to the node, and the amended theorem applied there. -/
theorem C6_witness :
    ((Graph.mk (W := ℝ) [(0, 0)] [[]]).nodes ≠ []) ∧
    (∃ nid, find_nearest_node euclidean_distance (Graph.mk (W := ℝ) [(0, 0)] [[]]) (0, 0) = some nid ∧
      ((euclidean_distance (0, 0) ((Graph.mk (W := ℝ) [(0, 0)] [[]]).nodes.getD nid (0, 0)) ≤ 1 / 10 →
          find_pathE ⟨[(0, 0)], [[]]⟩ (0, 0) (0, 0) true =
            some ([(Graph.mk (W := ℝ) [(0, 0)] [[]]).nodes.getD nid (0, 0)], 0)) ∧
       (1 / 10 < euclidean_distance (0, 0) ((Graph.mk (W := ℝ) [(0, 0)] [[]]).nodes.getD nid (0, 0)) →
          find_pathE ⟨[(0, 0)], [[]]⟩ (0, 0) (0, 0) true =
            some ([(0, 0), (Graph.mk (W := ℝ) [(0, 0)] [[]]).nodes.getD nid (0, 0), (0, 0)],
              euclidean_distance (0, 0) ((Graph.mk (W := ℝ) [(0, 0)] [[]]).nodes.getD nid (0, 0)) +
                euclidean_distance ((Graph.mk (W := ℝ) [(0, 0)] [[]]).nodes.getD nid (0, 0)) (0, 0))))) :=
  ⟨by simp, C6_find_path_self ⟨[(0, 0)], [[]]⟩ (0, 0) true (by simp)⟩

/-- C6 counterexample: on a one-node graph with the node at the origin,
    find_path((5,0), (5,0)) returns the three-point path
    [(5,0), (0,0), (5,0)] with distance 10, not a single-point path with
    distance 0. -/
theorem C6_counterexample :
    find_pathE ⟨[(0, 0)], [[]]⟩ (5, 0) (5, 0) true =
      some ([(5, 0), (0, 0), (5, 0)], 10) ∧
    ([(5, 0), (0, 0), (5, 0)] : List Point).length ≠ 1 ∧ (10 : ℝ) ≠ 0 := by
  refine ⟨?_, by simp, by norm_num⟩
  rw [find_pathE, find_path]
  norm_num [find_nearest_node, argminWith, astar, List.getD, euclid_x, abs_lt,
    abs_of_nonneg]

theorem getD_set_eq_ite (es : List (List (Nat × W))) (i j : Nat)
    (v : List (Nat × W)) :
    (es.set i v).getD j [] = if i = j ∧ i < es.length then v else es.getD j [] := by
  induction es generalizing i j with
  | nil => simp
  | cons h t ih =>
    cases i with
    | zero =>
      cases j with
      | zero => simp
      | succ j => simp
    | succ i =>
      cases j with
      | zero => simp
      | succ j =>
        have hs := ih i j
        simp only [List.set, List.getD_cons_succ, List.length_cons]
        rw [hs]
        by_cases hc : i = j ∧ i < t.length
        · rw [if_pos hc, if_pos (by omega)]
        · rw [if_neg hc, if_neg (by omega)]

theorem mem_add_edge (es : List (List (Nat × W))) (i j : Nat) (e x : Nat × W) :
    x ∈ (add_edge es i e).getD j [] ↔
      x ∈ es.getD j [] ∨ (i = j ∧ i < es.length ∧ x = e) := by
  rw [add_edge, getD_set_eq_ite]
  by_cases hc : i = j ∧ i < es.length
  · rcases hc with ⟨h1, h2⟩
    subst h1
    simp [h2]
  · rw [if_neg hc]
    constructor
    · exact fun h => Or.inl h
    · rintro (h | ⟨h1, h2, _⟩)
      · exact h
      · exact absurd ⟨h1, h2⟩ hc

theorem add_edge_length (es : List (List (Nat × W))) (i : Nat) (e : Nat × W) :
    (add_edge es i e).length = es.length := by
  rw [add_edge, List.length_set]

theorem getD_append_empty (es : List (List (Nat × W))) (j : Nat) :
    (es ++ [[]]).getD j [] = es.getD j [] := by
  induction es generalizing j with
  | nil => cases j <;> simp
  | cons h t ih =>
    cases j with
    | zero => simp
    | succ j => simpa using ih j

theorem findCloseIdx_lt (p : Point) (l : List Point) (i : Nat)
    (h : findCloseIdx p l = some i) : i < l.length := by
  induction l generalizing i with
  | nil => exact absurd h (by rw [findCloseIdx]; exact Option.noConfusion)
  | cons q qs ih =>
    rw [findCloseIdx] at h
    by_cases hc : closeTo q p
    · rw [if_pos hc] at h
      cases h
      exact Nat.succ_pos _
    · rw [if_neg hc] at h
      cases hf : findCloseIdx p qs with
      | none => rw [hf] at h; exact absurd h (by exact Option.noConfusion)
      | some k =>
        rw [hf] at h
        cases h
        exact Nat.succ_lt_succ (ih k hf)

theorem find_or_add_node_spec (g : Graph W) (p : Point)
    (h : g.edges.length = g.nodes.length) :
    (find_or_add_node g p).2.edges.length = (find_or_add_node g p).2.nodes.length ∧
    (find_or_add_node g p).1 < (find_or_add_node g p).2.nodes.length ∧
    (∀ j, (find_or_add_node g p).2.edges.getD j [] = g.edges.getD j []) := by
  rw [find_or_add_node]
  cases hf : findCloseIdx p g.nodes with
  | some i =>
    exact ⟨h, findCloseIdx_lt p g.nodes i hf, fun j => rfl⟩
  | none =>
    refine ⟨by simp [h], by simp, fun j => getD_append_empty g.edges j⟩

/-- The build invariant: edge/node list lengths agree, the adjacency
    relation is symmetric, and every stored weight is the distance between
    the endpoints of one of the streets. -/
def BuildInv (d : Point → Point → W) (sts : List (Point × Point))
    (g : Graph W) : Prop :=
  g.edges.length = g.nodes.length ∧
  (∀ u v w, (v, w) ∈ g.edges.getD u [] → (u, w) ∈ g.edges.getD v []) ∧
  (∀ u e, e ∈ g.edges.getD u [] → ∃ st ∈ sts, e.2 = d st.1 st.2)

theorem build_street_inv (d : Point → Point → W) (sts : List (Point × Point))
    (g : Graph W) (s : Point × Point) (hs : s ∈ sts) (hg : BuildInv d sts g) :
    BuildInv d sts (build_street d g s) := by
  obtain ⟨hlen, hsym, hwt⟩ := hg
  obtain ⟨h1len, h1lt, h1pres⟩ := find_or_add_node_spec g s.1 hlen
  obtain ⟨h2len, h2lt, h2pres⟩ :=
    find_or_add_node_spec (find_or_add_node g s.1).2 s.2 h1len
  set a := (find_or_add_node g s.1).1 with ha
  set g1 := (find_or_add_node g s.1).2 with hg1
  set b := (find_or_add_node g1 s.2).1 with hb
  set g2 := (find_or_add_node g1 s.2).2 with hg2
  have halt : a < g2.nodes.length := by
    have : g1.nodes.length ≤ g2.nodes.length := by
      rw [hg2, find_or_add_node]
      cases hf : findCloseIdx s.2 g1.nodes <;> simp
    omega
  have hpres : ∀ j, g2.edges.getD j [] = g.edges.getD j [] := by
    intro j
    rw [h2pres j, h1pres j]
  have hblen : b < g2.edges.length := by rw [h2len]; exact h2lt
  have halen : a < g2.edges.length := by rw [h2len]; exact halt
  have halen' : a < (add_edge g2.edges a (b, d s.1 s.2)).length := by
    rw [add_edge_length]; exact halen
  have hblen' : b < (add_edge g2.edges a (b, d s.1 s.2)).length := by
    rw [add_edge_length]; exact hblen
  rw [build_street]
  refine ⟨?_, ?_, ?_⟩
  · simp only [add_edge_length]
    exact h2len
  · intro u v w hm
    rw [mem_add_edge] at hm
    rcases hm with hm | ⟨hbu, _, hvw⟩
    · rw [mem_add_edge] at hm
      rcases hm with hm | ⟨hau, _, hvw⟩
      · rw [hpres u] at hm
        have := hsym u v w hm
        rw [mem_add_edge, mem_add_edge, hpres v]
        exact Or.inl (Or.inl this)
      · cases hvw
        rw [mem_add_edge]
        exact Or.inr ⟨rfl, hblen', by rw [hau]⟩
    · cases hvw
      rw [mem_add_edge, mem_add_edge]
      exact Or.inl (Or.inr ⟨rfl, halen, by rw [hbu]⟩)
  · intro u e hm
    rw [mem_add_edge] at hm
    rcases hm with hm | ⟨_, _, hvw⟩
    · rw [mem_add_edge] at hm
      rcases hm with hm | ⟨_, _, hvw⟩
      · rw [hpres u] at hm
        exact hwt u e hm
      · cases hvw
        exact ⟨s, hs, rfl⟩
    · cases hvw
      exact ⟨s, hs, rfl⟩

theorem build_fold_inv (d : Point → Point → W) (sts l : List (Point × Point))
    (hl : ∀ s ∈ l, s ∈ sts) (g : Graph W) (hg : BuildInv d sts g) :
    BuildInv d sts (l.foldl (build_street d) g) := by
  induction l generalizing g with
  | nil => exact hg
  | cons s t ih =>
    exact ih (fun x hx => hl x (List.mem_cons_of_mem s hx)) _
      (build_street_inv d sts g s (hl s (List.mem_cons_self s t)) hg)

theorem build_from_road_data_inv (d : Point → Point → W) (points : List Point)
    (streets : List (Point × Point)) :
    BuildInv d streets (build_from_road_data d points streets) := by
  rw [build_from_road_data]
  apply build_fold_inv d streets streets (fun s hs => hs)
  refine ⟨by simp, ?_, ?_⟩
  · intro u v w hm
    rw [List.getD_eq_getElem?_getD] at hm
    rcases h : (List.replicate points.length ([] : List (Nat × W)))[u]? with _ | l
    · rw [h] at hm
      exact absurd hm (by simp)
    · rw [h] at hm
      have : l = [] := by
        have := List.getElem?_mem h
        exact List.eq_of_mem_replicate this
      rw [this] at hm
      exact absurd hm (by simp)
  · intro u e hm
    rw [List.getD_eq_getElem?_getD] at hm
    rcases h : (List.replicate points.length ([] : List (Nat × W)))[u]? with _ | l
    · rw [h] at hm
      exact absurd hm (by simp)
    · rw [h] at hm
      have : l = [] := by
        have := List.getElem?_mem h
        exact List.eq_of_mem_replicate this
      rw [this] at hm
      exact absurd hm (by simp)

/-- C8: in every graph built by build_from_road_data, the adjacency
    relation is symmetric: whenever node u's adjacency list contains the
    entry (v, w), node v's adjacency list contains (u, w) with the same
    weight (each street appends the two directed arcs together). -/
theorem C8_adjacency_symmetric (points : List Point)
    (streets : List (Point × Point)) (u v : Nat) (w : ℝ)
    (h : (v, w) ∈ (build_from_road_dataE points streets).edges.getD u []) :
    (u, w) ∈ (build_from_road_dataE points streets).edges.getD v [] :=
  (build_from_road_data_inv euclidean_distance points streets).2.1 u v w h

/-- C8 witness: in the graph built from one street joining (0,0) and (1,0),
    node 0's adjacency holds (1, d) and symmetry yields (0, d) at node 1. -/
theorem C8_witness :
    (1, euclidean_distance (0, 0) (1, 0)) ∈
      (build_from_road_dataE [(0, 0), (1, 0)]
        [((0, 0), (1, 0))]).edges.getD 0 [] ∧
    (0, euclidean_distance (0, 0) (1, 0)) ∈
      (build_from_road_dataE [(0, 0), (1, 0)]
        [((0, 0), (1, 0))]).edges.getD 1 [] := by
  have hm : (1, euclidean_distance (0, 0) (1, 0)) ∈
      (build_from_road_dataE [(0, 0), (1, 0)]
        [((0, 0), (1, 0))]).edges.getD 0 [] := by
    rw [build_from_road_dataE, build_from_road_data]
    norm_num [build_street, find_or_add_node, findCloseIdx, closeTo, add_edge,
      List.replicate, abs_lt]
  exact ⟨hm, C8_adjacency_symmetric [(0, 0), (1, 0)] [((0, 0), (1, 0))] 0 1
    (euclidean_distance (0, 0) (1, 0)) hm⟩

/-- C7 (amended): in every graph built by build_from_road_data, every stored
    edge weight is non-negative and equals the Euclidean distance between
    the two endpoints of the street that created it.  It need NOT equal the
    distance between the Points of the two nodes it connects: the
    0.1-tolerance deduplication can resolve a street endpoint to a node at
    a slightly different Point (see the counterexample). -/
theorem C7_edge_weights (points : List Point) (streets : List (Point × Point))
    (u : Nat) (e : Nat × ℝ)
    (h : e ∈ (build_from_road_dataE points streets).edges.getD u []) :
    0 ≤ e.2 ∧ ∃ st ∈ streets, e.2 = euclidean_distance st.1 st.2 := by
  obtain ⟨st, hst, hw⟩ :=
    (build_from_road_data_inv euclidean_distance points streets).2.2 u e h
  exact ⟨hw ▸ euclidean_distance_nonneg st.1 st.2, st, hst, hw⟩

/-- C7 witness: the single exact street from (0,0) to (1,0). -/
theorem C7_witness :
    (1, euclidean_distance (0, 0) (1, 0)) ∈
      (build_from_road_dataE [(0, 0), (1, 0)]
        [((0, 0), (1, 0))]).edges.getD 0 [] ∧
    0 ≤ (euclidean_distance (0, 0) (1, 0)) ∧
    ∃ st ∈ [((0, 0), (1, 0))],
      euclidean_distance ((0 : ℚ), (0 : ℚ)) ((1 : ℚ), (0 : ℚ)) =
        euclidean_distance st.1 st.2 := by
  have hm : (1, euclidean_distance (0, 0) (1, 0)) ∈
      (build_from_road_dataE [(0, 0), (1, 0)]
        [((0, 0), (1, 0))]).edges.getD 0 [] := by
    rw [build_from_road_dataE, build_from_road_data]
    norm_num [build_street, find_or_add_node, findCloseIdx, closeTo, add_edge,
      List.replicate, abs_lt]
  exact ⟨hm, (C7_edge_weights [(0, 0), (1, 0)] [((0, 0), (1, 0))] 0
    (1, euclidean_distance (0, 0) (1, 0)) hm).1,
    (C7_edge_weights [(0, 0), (1, 0)] [((0, 0), (1, 0))] 0
    (1, euclidean_distance (0, 0) (1, 0)) hm).2⟩

/-- C7 counterexample: the street from (0.05, 0) to (10, 0) is deduplicated
    onto the node at (0,0), so the stored edge between nodes 0 and 1 weighs
    9.95, while the Euclidean distance between the nodes' Points (0,0) and
    (10,0) is 10 — the weight does not equal the inter-node distance. -/
theorem C7_counterexample :
    (build_from_road_dataE [(0, 0), (10, 0)]
        [((5/100, 0), (10, 0))]).nodes = [(0, 0), (10, 0)] ∧
    (build_from_road_dataE [(0, 0), (10, 0)]
        [((5/100, 0), (10, 0))]).edges.getD 0 [] = [(1, 995/100)] ∧
    euclidean_distance (0, 0) (10, 0) = 10 ∧ ((995/100 : ℝ) ≠ 10) := by
  refine ⟨?_, ?_, ?_, by norm_num⟩
  · rw [build_from_road_dataE, build_from_road_data]
    norm_num [build_street, find_or_add_node, findCloseIdx, closeTo, add_edge,
      List.replicate, abs_lt]
  · rw [build_from_road_dataE, build_from_road_data]
    norm_num [build_street, find_or_add_node, findCloseIdx, closeTo, add_edge,
      List.replicate, abs_lt, euclid_x, abs_of_nonneg]
  · rw [euclid_x (0, 0) (10, 0) rfl rfl]
    norm_num

/-- The distance actually used by calculate_package_profit (and the C4
    amendment): both legs are graph-path distances, and BOTH legs fall back
    to straight-line distance as soon as EITHER leg has no graph path. -/
noncomputable def fallback_both_leg_distance (g : Graph ℝ)
    (cur pickup drop : Point) : ℝ :=
  match find_pathE g cur pickup true, find_pathE g pickup drop true with
  | some r1, some r2 => r1.2 + r2.2
  | _, _ => euclidean_distance cur pickup + euclidean_distance pickup drop

/-- Modelled from the claim's words (the per-leg reading of the spec):
    each leg independently falls back to straight-line distance only when
    that leg has no graph path. -/
noncomputable def per_leg_distance (g : Graph ℝ) (cur pickup drop : Point) : ℝ :=
  (match find_pathE g cur pickup true with
   | some r1 => r1.2
   | none => euclidean_distance cur pickup) +
  (match find_pathE g pickup drop true with
   | some r2 => r2.2
   | none => euclidean_distance pickup drop)

/-- C4 (amended): calculate_package_profit returns -inf exactly when the
    package is delivered or its dropoff is unset; otherwise it returns
    reward*REWARD_WEIGHT - distance*DISTANCE_WEIGHT (defaults 1.0 and 0.1)
    where distance is the path distance current→pickup plus pickup→dropoff,
    with BOTH legs falling back to straight-line distance when EITHER leg
    has no graph path (not per-leg — see the counterexample). -/
theorem C4_profit_formula (g : Graph ℝ) (pkg : Package ℝ) (cur : Point) :
    (calculate_package_profitE g pkg cur = ⊥ ↔
      (pkg.delivered = true ∨ pkg.dropoff_pos = none)) ∧
    (∀ dp, pkg.dropoff_pos = some dp → pkg.delivered = false →
      calculate_package_profitE g pkg cur =
        ((pkg.reward * REWARD_WEIGHT -
          fallback_both_leg_distance g cur pkg.pickup_pos dp * DISTANCE_WEIGHT : ℝ) :
            WithBot ℝ)) := by
  constructor
  · rw [calculate_package_profitE, calculate_package_profit]
    by_cases hc : pkg.delivered = true ∨ pkg.dropoff_pos = none
    · rw [if_pos hc]
      simp [hc]
    · rw [if_neg hc]
      simp only [hc, iff_false]
      rcases h1 : find_path euclidean_distance (1 / 10) g cur pkg.pickup_pos true with
        _ | r1 <;>
        rcases h2 : find_path euclidean_distance (1 / 10) g pkg.pickup_pos
          (pkg.dropoff_pos.getD (0, 0)) true with _ | r2 <;>
        exact WithBot.coe_ne_bot
  · intro dp hdp hdel
    have hc : ¬ (pkg.delivered = true ∨ pkg.dropoff_pos = none) := by
      rw [hdel, hdp]
      simp
    rw [calculate_package_profitE, calculate_package_profit, if_neg hc,
      fallback_both_leg_distance]
    rw [hdp]
    simp only [Option.getD_some, find_pathE]
    rcases h1 : find_path euclidean_distance (1 / 10) g cur pkg.pickup_pos true with
      _ | r1 <;>
      rcases h2 : find_path euclidean_distance (1 / 10) g pkg.pickup_pos dp true with
        _ | r2 <;>
      rfl

/-- C4 witness: the formula branch of the amended theorem at a concrete
    empty graph and package. -/
theorem C4_witness :
    (Package.mk (W := ℝ) 1 (0, 0) (some (1, 0)) 100 false).dropoff_pos = some (1, 0) ∧
    (Package.mk (W := ℝ) 1 (0, 0) (some (1, 0)) 100 false).delivered = false ∧
    calculate_package_profitE ⟨[], []⟩ ⟨1, (0, 0), some (1, 0), 100, false⟩ (0, 0) =
      (((Package.mk (W := ℝ) 1 (0, 0) (some (1, 0)) 100 false).reward * REWARD_WEIGHT -
        fallback_both_leg_distance ⟨[], []⟩ (0, 0)
          (Package.mk (W := ℝ) 1 (0, 0) (some (1, 0)) 100 false).pickup_pos (1, 0) *
          DISTANCE_WEIGHT : ℝ) : WithBot ℝ) :=
  ⟨rfl, rfl,
    (C4_profit_formula ⟨[], []⟩ ⟨1, (0, 0), some (1, 0), 100, false⟩ (0, 0)).2
      (1, 0) rfl rfl⟩

/- C4: the concrete road snapshot for the counterexample: a chain
   0 -- 1 -- 2 with a detour (node 0 at x=0, node 1 at x=20, node 2 at
   x=10) and an isolated node 3 at x=100.  The leg (0,0)→(10,0) has a
   graph path of length 30 (≠ 10, the straight line); the leg
   (10,0)→(100,0) has none.  The code then falls back to straight-line on
   BOTH legs (total 100), while the claimed per-leg fallback gives
   30 + 90 = 120. -/

noncomputable def c4G : Graph ℝ :=
  build_from_road_dataE [(0, 0), (20, 0), (10, 0), (100, 0)]
    [((0, 0), (20, 0)), ((20, 0), (10, 0))]

noncomputable def c4edges : List (List (Nat × ℝ)) :=
  [[(1, 20)], [(0, 20), (2, 10)], [(1, 10)], []]

noncomputable def c4Gl : Graph ℝ :=
  ⟨[(0, 0), (20, 0), (10, 0), (100, 0)], c4edges⟩

theorem c4G_eq : c4G = c4Gl := by
  simp only [c4G, build_from_road_dataE, build_from_road_data]
  norm_num [build_street, find_or_add_node, findCloseIdx, closeTo, add_edge,
    euclid_x, abs_lt, abs_of_nonneg, List.replicate, c4Gl, c4edges]

theorem c4_astar_leg1 : astar euclidean_distance c4Gl 0 2 = some ([0, 1, 2], 30) := by
  have e0 : astar euclidean_distance c4Gl 0 2 = astarLoop c4Gl
      (fun n => euclidean_distance (c4Gl.nodes.getD n (0, 0)) (c4Gl.nodes.getD 2 (0, 0)))
      0 2 9 [(0, 0)] [] [(0, 0)] [] := by
    rw [astar]
    norm_num [graphFuel, c4Gl, c4edges]
  rw [e0]
  have e1 : astarLoop c4Gl
      (fun n => euclidean_distance (c4Gl.nodes.getD n (0, 0)) (c4Gl.nodes.getD 2 (0, 0)))
      0 2 9 [(0, 0)] [] [(0, 0)] [] =
    astarLoop c4Gl
      (fun n => euclidean_distance (c4Gl.nodes.getD n (0, 0)) (c4Gl.nodes.getD 2 (0, 0)))
      0 2 8 [(30, 1)] [(1, 0)] [(1, 20), (0, 0)] [0] := by
    rw [astarLoop.eq_def]
    norm_num [popMin, astarRelax, lookupW, List.getD, c4Gl, c4edges, euclid_x,
      abs_lt, abs_of_nonneg, abs_sub_comm]
  rw [e1]
  have e2 : astarLoop c4Gl
      (fun n => euclidean_distance (c4Gl.nodes.getD n (0, 0)) (c4Gl.nodes.getD 2 (0, 0)))
      0 2 8 [(30, 1)] [(1, 0)] [(1, 20), (0, 0)] [0] =
    astarLoop c4Gl
      (fun n => euclidean_distance (c4Gl.nodes.getD n (0, 0)) (c4Gl.nodes.getD 2 (0, 0)))
      0 2 7 [(30, 2)] [(2, 1), (1, 0)] [(2, 30), (1, 20), (0, 0)] [1, 0] := by
    rw [astarLoop.eq_def]
    norm_num [popMin, astarRelax, lookupW, List.getD, c4Gl, c4edges, euclid_x,
      abs_lt, abs_of_nonneg, abs_sub_comm]
  rw [e2]
  have e3 : astarLoop c4Gl
      (fun n => euclidean_distance (c4Gl.nodes.getD n (0, 0)) (c4Gl.nodes.getD 2 (0, 0)))
      0 2 7 [(30, 2)] [(2, 1), (1, 0)] [(2, 30), (1, 20), (0, 0)] [1, 0] =
      some ([0, 1, 2], 30) := by
    rw [astarLoop.eq_def]
    norm_num [popMin, lookupW, lookupNat, reconstructPath, List.getD]
  rw [e3]

theorem c4_astar_leg2 : astar euclidean_distance c4Gl 2 3 = none := by
  have e0 : astar euclidean_distance c4Gl 2 3 = astarLoop c4Gl
      (fun n => euclidean_distance (c4Gl.nodes.getD n (0, 0)) (c4Gl.nodes.getD 3 (0, 0)))
      2 3 9 [(0, 2)] [] [(2, 0)] [] := by
    rw [astar]
    norm_num [graphFuel, c4Gl, c4edges]
  rw [e0]
  have e1 : astarLoop c4Gl
      (fun n => euclidean_distance (c4Gl.nodes.getD n (0, 0)) (c4Gl.nodes.getD 3 (0, 0)))
      2 3 9 [(0, 2)] [] [(2, 0)] [] =
    astarLoop c4Gl
      (fun n => euclidean_distance (c4Gl.nodes.getD n (0, 0)) (c4Gl.nodes.getD 3 (0, 0)))
      2 3 8 [(90, 1)] [(1, 2)] [(1, 10), (2, 0)] [2] := by
    rw [astarLoop.eq_def]
    norm_num [popMin, astarRelax, lookupW, List.getD, c4Gl, c4edges, euclid_x,
      abs_lt, abs_of_nonneg, abs_sub_comm]
  rw [e1]
  have e2 : astarLoop c4Gl
      (fun n => euclidean_distance (c4Gl.nodes.getD n (0, 0)) (c4Gl.nodes.getD 3 (0, 0)))
      2 3 8 [(90, 1)] [(1, 2)] [(1, 10), (2, 0)] [2] =
    astarLoop c4Gl
      (fun n => euclidean_distance (c4Gl.nodes.getD n (0, 0)) (c4Gl.nodes.getD 3 (0, 0)))
      2 3 7 [(130, 0)] [(0, 1), (1, 2)] [(0, 30), (1, 10), (2, 0)] [1, 2] := by
    rw [astarLoop.eq_def]
    norm_num [popMin, astarRelax, lookupW, List.getD, c4Gl, c4edges, euclid_x,
      abs_lt, abs_of_nonneg, abs_sub_comm]
  rw [e2]
  have e3 : astarLoop c4Gl
      (fun n => euclidean_distance (c4Gl.nodes.getD n (0, 0)) (c4Gl.nodes.getD 3 (0, 0)))
      2 3 7 [(130, 0)] [(0, 1), (1, 2)] [(0, 30), (1, 10), (2, 0)] [1, 2] =
    astarLoop c4Gl
      (fun n => euclidean_distance (c4Gl.nodes.getD n (0, 0)) (c4Gl.nodes.getD 3 (0, 0)))
      2 3 6 [] [(0, 1), (1, 2)] [(0, 30), (1, 10), (2, 0)] [0, 1, 2] := by
    rw [astarLoop.eq_def]
    norm_num [popMin, astarRelax, lookupW, List.getD, c4Gl, c4edges, euclid_x,
      abs_lt, abs_of_nonneg, abs_sub_comm]
  rw [e3]
  rw [astarLoop.eq_def]
  norm_num [popMin]

theorem c4_nearest_0 : find_nearest_node euclidean_distance c4Gl (0, 0) = some 0 := by
  norm_num [find_nearest_node, argminWith, c4Gl, euclid_x, abs_lt, abs_of_nonneg]

theorem c4_nearest_10 : find_nearest_node euclidean_distance c4Gl (10, 0) = some 2 := by
  norm_num [find_nearest_node, argminWith, c4Gl, euclid_x, abs_lt, abs_of_nonneg,
    abs_sub_comm]

theorem c4_nearest_100 : find_nearest_node euclidean_distance c4Gl (100, 0) = some 3 := by
  norm_num [find_nearest_node, argminWith, c4Gl, euclid_x, abs_lt, abs_of_nonneg,
    abs_sub_comm]

theorem c4_fp_leg1 :
    find_pathE c4Gl (0, 0) (10, 0) true = some ([(0, 0), (20, 0), (10, 0)], 30) := by
  rw [find_pathE, find_path, c4_nearest_0, c4_nearest_10]
  dsimp only
  rw [if_pos rfl, c4_astar_leg1]
  norm_num [List.getD, c4Gl, euclid_x, abs_lt, abs_of_nonneg, List.getLastD]

theorem c4_fp_leg2 : find_pathE c4Gl (10, 0) (100, 0) true = none := by
  rw [find_pathE, find_path, c4_nearest_10, c4_nearest_100]
  dsimp only
  rw [if_pos rfl, c4_astar_leg2]

/-- C4 counterexample: on the chain-with-detour graph, the profit of a
    package with pickup (10,0), dropoff (100,0) and reward 50 scored from
    (0,0) is 40 (both legs fall back to straight-line because the second
    leg has no path: 50 - 0.1*(10+90)), while the per-leg fallback the
    claim describes would give 38 (50 - 0.1*(30+90)). -/
theorem C4_counterexample :
    calculate_package_profitE c4G ⟨7, (10, 0), some (100, 0), 50, false⟩ (0, 0) =
      ((40 : ℝ) : WithBot ℝ) ∧
    (((Package.mk (W := ℝ) 7 (10, 0) (some (100, 0)) 50 false).reward * REWARD_WEIGHT -
      per_leg_distance c4G (0, 0) (10, 0) (100, 0) * DISTANCE_WEIGHT : ℝ) : WithBot ℝ) =
      ((38 : ℝ) : WithBot ℝ) ∧
    ((40 : ℝ) : WithBot ℝ) ≠ ((38 : ℝ) : WithBot ℝ) := by
  refine ⟨?_, ?_, by norm_num⟩
  · rw [c4G_eq, calculate_package_profitE, calculate_package_profit]
    rw [if_neg (by simp)]
    dsimp only [Option.getD_some]
    rw [show find_path euclidean_distance (1 / 10) c4Gl (0, 0) (10, 0) true =
        some ([(0, 0), (20, 0), (10, 0)], 30) from c4_fp_leg1,
      show find_path euclidean_distance (1 / 10) c4Gl (10, 0) (100, 0) true =
        none from c4_fp_leg2]
    dsimp only
    rw [euclid_x (0, 0) (10, 0) rfl rfl, euclid_x (10, 0) (100, 0) rfl rfl,
      REWARD_WEIGHT, DISTANCE_WEIGHT]
    norm_num
  · rw [c4G_eq, per_leg_distance, c4_fp_leg1, c4_fp_leg2]
    dsimp only
    rw [euclid_x (10, 0) (100, 0) rfl rfl, REWARD_WEIGHT, DISTANCE_WEIGHT]
    norm_num

/-- A candidate the greedy inner loop may pick: skipped are delivered
    packages, already-selected positions (object identity) and packages
    without a dropoff. -/
def goodCand (sel : List Nat) (ix : Nat × Package W) : Prop :=
  ¬ (ix.2.delivered = true ∨ ix.1 ∈ sel ∨ ix.2.dropoff_pos = none)

instance (sel : List Nat) (ix : Nat × Package W) : Decidable (goodCand sel ix) :=
  inferInstanceAs (Decidable (¬ _))

/-- An eligible, not-yet-selected catalog entry: a position/package pair of
    the catalog that the inner loop may pick. -/
def IsCand (vals : List (Package W)) (sel : List Nat) (ip : Nat × Package W) : Prop :=
  ip ∈ idxFrom 0 vals ∧ goodCand sel ip

theorem greedyStep_mono (P : Point → Package W → WithBot W) (cur : Point)
    (sel : List Nat) (l : List (Nat × Package W))
    (st : WithBot W × Option (Nat × Package W)) :
    st.1 ≤ (l.foldl (greedyStep P cur sel) st).1 := by
  induction l generalizing st with
  | nil => exact le_refl _
  | cons x t ih =>
    refine le_trans ?_ (ih (greedyStep P cur sel st x))
    rw [greedyStep]
    by_cases h1 : x.2.delivered = true ∨ x.1 ∈ sel ∨ x.2.dropoff_pos = none
    · rw [if_pos h1]
    · rw [if_neg h1]
      by_cases h2 : st.1 < P cur x.2 ∧ 0 < P cur x.2
      · rw [if_pos h2]
        exact le_of_lt h2.1
      · rw [if_neg h2]

theorem greedyStep_ub (P : Point → Package W → WithBot W) (cur : Point)
    (sel : List Nat) (l : List (Nat × Package W))
    (st : WithBot W × Option (Nat × Package W)) (ix : Nat × Package W)
    (hm : ix ∈ l) (hg : goodCand sel ix) :
    P cur ix.2 ≤ (l.foldl (greedyStep P cur sel) st).1 ∨ P cur ix.2 ≤ 0 := by
  induction l generalizing st with
  | nil => exact absurd hm (List.not_mem_nil ix)
  | cons x t ih =>
    rcases List.mem_cons.mp hm with rfl | hmt
    · rw [List.foldl_cons]
      have hst : (greedyStep P cur sel st ix).1 = P cur ix.2 ∨
          (P cur ix.2 ≤ (greedyStep P cur sel st ix).1 ∨ P cur ix.2 ≤ 0) := by
        rw [greedyStep, if_neg hg]
        by_cases h2 : st.1 < P cur ix.2 ∧ 0 < P cur ix.2
        · rw [if_pos h2]
          exact Or.inl rfl
        · rw [if_neg h2]
          rcases not_and_or.mp h2 with h | h
          · exact Or.inr (Or.inl (le_of_not_lt h))
          · exact Or.inr (Or.inr (le_of_not_lt h))
      rcases hst with hst | hst | hst
      · exact Or.inl (hst ▸ greedyStep_mono P cur sel t _)
      · exact Or.inl (le_trans hst (greedyStep_mono P cur sel t _))
      · exact Or.inr hst
    · exact ih (greedyStep P cur sel st x) hmt

theorem greedyStep_provenance (P : Point → Package W → WithBot W) (cur : Point)
    (sel : List Nat) (l : List (Nat × Package W))
    (st : WithBot W × Option (Nat × Package W)) :
    l.foldl (greedyStep P cur sel) st = st ∨
    ∃ ix ∈ l, goodCand sel ix ∧ 0 < P cur ix.2 ∧
      l.foldl (greedyStep P cur sel) st = (P cur ix.2, some ix) := by
  induction l generalizing st with
  | nil => exact Or.inl rfl
  | cons x t ih =>
    rw [List.foldl_cons]
    by_cases h1 : x.2.delivered = true ∨ x.1 ∈ sel ∨ x.2.dropoff_pos = none
    · have hx : greedyStep P cur sel st x = st := by rw [greedyStep, if_pos h1]
      rw [hx]
      rcases ih st with h | ⟨iy, hiy, hgy, hpy, hr⟩
      · exact Or.inl h
      · exact Or.inr ⟨iy, List.mem_cons_of_mem x hiy, hgy, hpy, hr⟩
    · by_cases h2 : st.1 < P cur x.2 ∧ 0 < P cur x.2
      · have hx : greedyStep P cur sel st x = (P cur x.2, some x) := by
          rw [greedyStep, if_neg h1, if_pos h2]
        rw [hx]
        rcases ih (P cur x.2, some x) with h | ⟨iy, hiy, hgy, hpy, hr⟩
        · exact Or.inr ⟨x, List.mem_cons_self x t, h1, h2.2, h⟩
        · exact Or.inr ⟨iy, List.mem_cons_of_mem x hiy, hgy, hpy, hr⟩
      · have hx : greedyStep P cur sel st x = st := by
          rw [greedyStep, if_neg h1, if_neg h2]
        rw [hx]
        rcases ih st with h | ⟨iy, hiy, hgy, hpy, hr⟩
        · exact Or.inl h
        · exact Or.inr ⟨iy, List.mem_cons_of_mem x hiy, hgy, hpy, hr⟩

theorem select_best_candidate_none (P : Point → Package W → WithBot W)
    (cur : Point) (sel : List Nat) (vals : List (Package W))
    (h : select_best_candidate P cur sel vals = none) :
    ∀ ip, IsCand vals sel ip → ¬ 0 < P cur ip.2 := by
  intro ip ⟨hm, hg⟩ hpos
  rcases greedyStep_provenance P cur sel (idxFrom 0 vals) (⊥, none) with hr |
    ⟨iy, _, _, _, hr⟩
  · rcases greedyStep_ub P cur sel (idxFrom 0 vals) (⊥, none) ip hm hg with hub | hub
    · rw [hr] at hub
      exact absurd (lt_of_lt_of_le hpos hub) (by simp)
    · exact absurd (lt_of_lt_of_le hpos hub) (lt_irrefl 0)
  · rw [select_best_candidate, hr] at h
    exact Option.noConfusion h

theorem select_best_candidate_some (P : Point → Package W → WithBot W)
    (cur : Point) (sel : List Nat) (vals : List (Package W))
    (ip : Nat × Package W)
    (h : select_best_candidate P cur sel vals = some ip) :
    IsCand vals sel ip ∧ 0 < P cur ip.2 ∧
      ∀ iq, IsCand vals sel iq → P cur iq.2 ≤ P cur ip.2 := by
  rcases greedyStep_provenance P cur sel (idxFrom 0 vals) (⊥, none) with hr |
    ⟨iy, hmy, hgy, hpy, hr⟩
  · rw [select_best_candidate, hr] at h
    exact Option.noConfusion h
  · rw [select_best_candidate, hr] at h
    have hip : iy = ip := by
      simpa using h
    subst hip
    refine ⟨⟨hmy, hgy⟩, hpy, ?_⟩
    intro iq ⟨hmq, hgq⟩
    rcases greedyStep_ub P cur sel (idxFrom 0 vals) (⊥, none) iq hmq hgq with hub | hub
    · rw [hr] at hub
      exact hub
    · exact le_trans hub (le_of_lt hpy)

/-- The step-by-step specification of the greedy selection loop: it stops
    when the fuel (max package count) runs out, or as soon as no eligible
    unselected candidate has strictly positive profit; otherwise the next
    pick is an eligible unselected candidate of strictly positive and
    maximal profit at the current scoring position, and the position moves
    to that pick's dropoff. -/
inductive GreedyChain (P : Point → Package W → WithBot W)
    (vals : List (Package W)) :
    Nat → Point → List Nat → List (Nat × Package W) → Prop
  | stop_fuel (cur : Point) (sel : List Nat) : GreedyChain P vals 0 cur sel []
  | stop_none (n : Nat) (cur : Point) (sel : List Nat)
      (h : ∀ ip, IsCand vals sel ip → ¬ 0 < P cur ip.2) :
      GreedyChain P vals n cur sel []
  | pick (n : Nat) (cur : Point) (sel : List Nat) (ip : Nat × Package W)
      (rest : List (Nat × Package W))
      (hc : IsCand vals sel ip) (hpos : 0 < P cur ip.2)
      (hmax : ∀ iq, IsCand vals sel iq → P cur iq.2 ≤ P cur ip.2)
      (hrest : GreedyChain P vals n (ip.2.dropoff_pos.getD cur) (ip.1 :: sel) rest) :
      GreedyChain P vals (n + 1) cur sel (ip :: rest)

theorem greedy_aux_chain (P : Point → Package W → WithBot W)
    (vals : List (Package W)) (n : Nat) (cur : Point) (sel : List Nat) :
    GreedyChain P vals n cur sel (select_packages_greedy_aux P vals n cur sel) := by
  induction n generalizing cur sel with
  | zero => exact GreedyChain.stop_fuel cur sel
  | succ n ih =>
    rw [select_packages_greedy_aux]
    cases hb : select_best_candidate P cur sel vals with
    | none =>
      exact GreedyChain.stop_none (n + 1) cur sel
        (select_best_candidate_none P cur sel vals hb)
    | some ip =>
      obtain ⟨hc, hpos, hmax⟩ := select_best_candidate_some P cur sel vals ip hb
      exact GreedyChain.pick n cur sel ip _ hc hpos hmax (ih _ _)

theorem chain_length (P : Point → Package W → WithBot W)
    (vals : List (Package W)) (n : Nat) (cur : Point) (sel : List Nat)
    (picks : List (Nat × Package W)) (h : GreedyChain P vals n cur sel picks) :
    picks.length ≤ n := by
  induction h with
  | stop_fuel _ _ => exact le_refl 0
  | stop_none _ _ _ _ => exact Nat.zero_le _
  | pick n cur sel ip rest hc hpos hmax hrest ih =>
    exact Nat.succ_le_succ ih

theorem chain_nodup (P : Point → Package W → WithBot W)
    (vals : List (Package W)) (n : Nat) (cur : Point) (sel : List Nat)
    (picks : List (Nat × Package W)) (h : GreedyChain P vals n cur sel picks) :
    (∀ i ∈ picks.map Prod.fst, i ∉ sel) ∧ (picks.map Prod.fst).Nodup := by
  induction h with
  | stop_fuel _ _ => exact ⟨by simp, List.nodup_nil⟩
  | stop_none _ _ _ _ => exact ⟨by simp, List.nodup_nil⟩
  | pick n cur sel ip rest hc hpos hmax hrest ih =>
    have hip : ip.1 ∉ sel := by
      have := hc.2
      rw [goodCand] at this
      tauto
    refine ⟨?_, ?_⟩
    · intro i hi
      rcases List.mem_map.mp hi with ⟨a, ha, rfl⟩
      rcases List.mem_cons.mp ha with rfl | ha
      · exact hip
      · have := ih.1 a.1 (List.mem_map_of_mem Prod.fst ha)
        intro hcon
        exact this (List.mem_cons_of_mem _ hcon)
    · rw [List.map_cons, List.nodup_cons]
      refine ⟨?_, ih.2⟩
      intro hcon
      exact ih.1 ip.1 hcon (List.mem_cons_self _ _)

/-- The scoring position and selected-set after a sequence of picks. -/
def finalState (cur : Point) (sel : List Nat) :
    List (Nat × Package W) → Point × List Nat
  | [] => (cur, sel)
  | ip :: rest => finalState (ip.2.dropoff_pos.getD cur) (ip.1 :: sel) rest

theorem chain_early_stop (P : Point → Package W → WithBot W)
    (vals : List (Package W)) (n : Nat) (cur : Point) (sel : List Nat)
    (picks : List (Nat × Package W)) (h : GreedyChain P vals n cur sel picks)
    (hlen : picks.length < n) :
    ∀ ip, IsCand vals (finalState cur sel picks).2 ip →
      ¬ 0 < P (finalState cur sel picks).1 ip.2 := by
  induction h with
  | stop_fuel _ _ => exact absurd hlen (by simp)
  | stop_none _ _ _ hnone => exact hnone
  | pick n cur sel ip rest hc hpos hmax hrest ih =>
    rw [List.length_cons] at hlen
    exact ih (Nat.lt_of_succ_lt_succ hlen)

/-- C3: select_packages_greedy returns the projection of a pick sequence
    `picks` (position, package) such that: the picked positions are
    pairwise distinct catalog positions (object identity, so the packages
    are distinct), at most maxCount are picked, each pick is an eligible
    (not delivered, dropoff known), not-yet-selected catalog entry whose
    profit at the position current for its step (start position first,
    previous pick's dropoff afterwards) is strictly positive and maximal
    among the remaining eligible unselected entries, and the loop stops
    early only when no remaining candidate has strictly positive profit. -/
theorem C3_select_packages_greedy (g : Graph ℝ) (cat : Catalog ℝ) (cur : Point)
    (maxP : Nat) :
    ∃ picks : List (Nat × Package ℝ),
      select_packages_greedyE g cat cur maxP = picks.map Prod.snd ∧
      GreedyChain (fun pos pkg => calculate_package_profitE g pkg pos)
        (cat.map Prod.snd) maxP cur [] picks ∧
      (picks.map Prod.fst).Nodup ∧
      picks.length ≤ maxP ∧
      (picks.length < maxP →
        ∀ ip, IsCand (cat.map Prod.snd) (finalState cur [] picks).2 ip →
          ¬ 0 < calculate_package_profitE g ip.2 (finalState cur [] picks).1) := by
  refine ⟨select_packages_greedy_aux
      (fun pos pkg => calculate_package_profitE g pkg pos)
      (cat.map Prod.snd) maxP cur [], rfl, ?_, ?_, ?_, ?_⟩
  · exact greedy_aux_chain _ _ maxP cur []
  · exact (chain_nodup _ _ maxP cur [] _ (greedy_aux_chain _ _ maxP cur [])).2
  · exact chain_length _ _ maxP cur [] _ (greedy_aux_chain _ _ maxP cur [])
  · exact chain_early_stop _ _ maxP cur [] _ (greedy_aux_chain _ _ maxP cur [])

theorem selections_sound {α : Type u} (l : List α) (y : α) (r : List α)
    (h : (y, r) ∈ selections l) : List.Perm (y :: r) l := by
  induction l generalizing y r with
  | nil => exact absurd h (by rw [selections]; exact List.not_mem_nil _)
  | cons x xs ih =>
    rw [selections] at h
    rcases List.mem_cons.mp h with heq | hm
    · cases heq
      exact List.Perm.refl _
    · rcases List.mem_map.mp hm with ⟨p, hp, heq⟩
      cases heq
      exact List.Perm.trans (List.Perm.swap x p.1 p.2)
        (List.Perm.cons x (ih p.1 p.2 (by rcases p with ⟨a, b⟩; exact hp)))

theorem selections_length {α : Type u} (l : List α) (y : α) (r : List α)
    (h : (y, r) ∈ selections l) : r.length + 1 = l.length := by
  have hl := (selections_sound l y r h).length_eq
  simpa using hl

theorem selections_complete {α : Type u} (l : List α) (y : α) (h : y ∈ l) :
    ∃ r, (y, r) ∈ selections l ∧ List.Perm (y :: r) l := by
  induction l with
  | nil => exact absurd h (List.not_mem_nil y)
  | cons x xs ih =>
    by_cases hxy : y = x
    · subst hxy
      exact ⟨xs, by rw [selections]; exact List.mem_cons_self _ _, List.Perm.refl _⟩
    · have hyxs : y ∈ xs := by
        rcases List.mem_cons.mp h with h1 | h1
        · exact absurd h1 hxy
        · exact h1
      obtain ⟨r, hm, hperm⟩ := ih hyxs
      refine ⟨x :: r, ?_, ?_⟩
      · rw [selections]
        exact List.mem_cons_of_mem _ (List.mem_map.mpr ⟨(y, r), hm, rfl⟩)
      · exact List.Perm.trans (List.Perm.swap x y r) (List.Perm.cons x hperm)

theorem permutationsPyAux_sound {α : Type u} (n : Nat) (l : List α) (hn : n = l.length)
    (l' : List α) (h : l' ∈ permutationsPyAux n l) : List.Perm l' l := by
  induction n generalizing l l' with
  | zero =>
    rw [permutationsPyAux] at h
    rcases List.mem_cons.mp h with rfl | h1
    · cases l with
      | nil => exact List.Perm.refl _
      | cons x xs => exact absurd hn (by simp)
    · exact absurd h1 (List.not_mem_nil _)
  | succ n ih =>
    rw [permutationsPyAux] at h
    rcases List.mem_flatMap.mp h with ⟨p, hp, hmem⟩
    rcases List.mem_map.mp hmem with ⟨t, ht, rfl⟩
    have hperm : List.Perm (p.1 :: p.2) l := selections_sound l p.1 p.2 (by
      rcases p with ⟨a, b⟩
      exact hp)
    have hlen : p.2.length = n := by
      have hsl := selections_length l p.1 p.2 (by rcases p with ⟨a, b⟩; exact hp)
      omega
    exact List.Perm.trans (List.Perm.cons p.1 (ih p.2 hlen.symm t ht)) hperm

theorem permutationsPyAux_complete {α : Type u} (n : Nat) (l : List α) (hn : n = l.length)
    (l' : List α) (h : List.Perm l' l) : l' ∈ permutationsPyAux n l := by
  induction n generalizing l l' with
  | zero =>
    have hl : l = [] := by
      cases l with
      | nil => rfl
      | cons x xs => exact absurd hn (by simp)
    subst hl
    rw [List.perm_nil.mp h, permutationsPyAux]
    exact List.mem_cons_self _ _
  | succ n ih =>
    cases l' with
    | nil =>
      have hlen := h.length_eq
      rw [← hn] at hlen
      exact absurd hlen.symm (by simp)
    | cons y t =>
      have hy : y ∈ l := h.mem_iff.mp (List.mem_cons_self y t)
      obtain ⟨r, hmr, hr⟩ := selections_complete l y hy
      have hperm : List.Perm t r := by
        have h2 : List.Perm (y :: t) (y :: r) := List.Perm.trans h hr.symm
        exact (List.perm_cons y).mp h2
      have hlenr : n = r.length := by
        have hsl := selections_length l y r hmr
        omega
      rw [permutationsPyAux]
      apply List.mem_flatMap.mpr
      exact ⟨(y, r), hmr, List.mem_map.mpr ⟨t, ih r hlenr t hperm, rfl⟩⟩

theorem permutationsPy_sound {α : Type u} (l l' : List α) (h : l' ∈ permutationsPy l) :
    List.Perm l' l :=
  permutationsPyAux_sound l.length l rfl l' h

theorem permutationsPy_complete {α : Type u} (l l' : List α) (h : List.Perm l' l) :
    l' ∈ permutationsPy l :=
  permutationsPyAux_complete l.length l rfl l' h

theorem foldMin_from (f : α → W) (t : List α) (a : α) :
    ∃ r, t.foldl (fun best y =>
        if ((f y : W) : WithTop W) < best.2 then (y, ((f y : W) : WithTop W))
        else best) (a, ((f a : W) : WithTop W)) = (r, ((f r : W) : WithTop W)) ∧
      f r ≤ f a ∧ (∀ y ∈ t, f r ≤ f y) ∧
      (r = a ∨ ∃ pre post, t = pre ++ r :: post ∧ f r < f a ∧
        ∀ y ∈ pre, f r < f y) := by
  induction t generalizing a with
  | nil => exact ⟨a, rfl, le_refl _, by simp, Or.inl rfl⟩
  | cons z t ih =>
    rw [List.foldl_cons]
    by_cases hc : f z < f a
    · have hs : (if ((f z : W) : WithTop W) < ((a, ((f a : W) : WithTop W)) :
          α × WithTop W).2 then (z, ((f z : W) : WithTop W))
          else (a, ((f a : W) : WithTop W))) = (z, ((f z : W) : WithTop W)) :=
        if_pos (WithTop.coe_lt_coe.mpr hc)
      rw [hs]
      obtain ⟨r, hfold, hra, hall, hsplit⟩ := ih z
      refine ⟨r, hfold, le_of_lt (lt_of_le_of_lt hra hc), ?_, ?_⟩
      · intro y hy
        rcases List.mem_cons.mp hy with rfl | hy
        · exact hra
        · exact hall y hy
      · rcases hsplit with rfl | ⟨pre, post, hteq, hrz, hpre⟩
        · exact Or.inr ⟨[], t, rfl, lt_of_le_of_lt hra hc, by simp⟩
        · refine Or.inr ⟨z :: pre, post, by rw [hteq]; rfl, lt_of_lt_of_le
            (lt_of_lt_of_le hrz (le_of_lt hc)) (le_refl _), ?_⟩
          intro y hy
          rcases List.mem_cons.mp hy with rfl | hy
          · exact hrz
          · exact hpre y hy
    · have hs : (if ((f z : W) : WithTop W) < ((a, ((f a : W) : WithTop W)) :
          α × WithTop W).2 then (z, ((f z : W) : WithTop W))
          else (a, ((f a : W) : WithTop W))) = (a, ((f a : W) : WithTop W)) :=
        if_neg (fun hcon => hc (WithTop.coe_lt_coe.mp hcon))
      rw [hs]
      obtain ⟨r, hfold, hra, hall, hsplit⟩ := ih a
      refine ⟨r, hfold, hra, ?_, ?_⟩
      · intro y hy
        rcases List.mem_cons.mp hy with rfl | hy
        · exact le_trans hra (le_of_not_lt hc)
        · exact hall y hy
      · rcases hsplit with rfl | ⟨pre, post, hteq, hrless, hpre⟩
        · exact Or.inl rfl
        · refine Or.inr ⟨z :: pre, post, by rw [hteq]; rfl, hrless, ?_⟩
          intro y hy
          rcases List.mem_cons.mp hy with rfl | hy
          · exact lt_of_lt_of_le hrless (le_of_not_lt hc)
          · exact hpre y hy

theorem foldMin_top (f : α → W) (l : List α) (hl : l ≠ []) (a0 : α) :
    ∃ r pre post,
      (l.foldl (fun best y =>
        if ((f y : W) : WithTop W) < best.2 then (y, ((f y : W) : WithTop W))
        else best) (a0, (⊤ : WithTop W))).1 = r ∧
      l = pre ++ r :: post ∧ (∀ y ∈ pre, f r < f y) ∧ (∀ y ∈ l, f r ≤ f y) := by
  cases l with
  | nil => exact absurd rfl hl
  | cons z t =>
    rw [List.foldl_cons]
    have hs : (if ((f z : W) : WithTop W) < ((a0, (⊤ : WithTop W)) :
        α × WithTop W).2 then (z, ((f z : W) : WithTop W))
        else (a0, (⊤ : WithTop W))) = (z, ((f z : W) : WithTop W)) :=
      if_pos (WithTop.coe_lt_top _)
    rw [hs]
    obtain ⟨r, hfold, hra, hall, hsplit⟩ := foldMin_from f t z
    rcases hsplit with rfl | ⟨pre, post, hteq, hrz, hpre⟩
    · refine ⟨r, [], t, by rw [hfold], rfl, by simp, ?_⟩
      intro y hy
      rcases List.mem_cons.mp hy with rfl | hy
      · exact le_refl _
      · exact hall y hy
    · refine ⟨r, z :: pre, post, by rw [hfold], by rw [hteq]; rfl, ?_, ?_⟩
      · intro y hy
        rcases List.mem_cons.mp hy with rfl | hy
        · exact hrz
        · exact hpre y hy
      · intro y hy
        rcases List.mem_cons.mp hy with rfl | hy
        · exact hra
        · exact hall y hy

theorem argminWith_none (f : α → W) (l : List α) (h : argminWith f l = none) :
    l = [] := by
  cases l with
  | nil => rfl
  | cons x xs =>
    obtain ⟨ia, hia⟩ := argminWith_isSome f (x :: xs) (by simp)
    rw [hia] at h
    exact Option.noConfusion h

theorem get_cons_eraseIdx_perm {α : Type u} (l : List α) (i : Nat) (p : α)
    (h : l.get? i = some p) : List.Perm l (p :: l.eraseIdx i) := by
  induction l generalizing i with
  | nil => exact absurd h (by simp)
  | cons x xs ih =>
    cases i with
    | zero =>
      rw [List.get?_cons_zero] at h
      cases h
      exact List.Perm.refl _
    | succ i =>
      rw [List.get?_cons_succ] at h
      rw [List.eraseIdx_cons_succ]
      exact List.Perm.trans (List.Perm.cons x (ih i h)) (List.Perm.swap p x _)

theorem optimize_aux_perm (d : Point → Point → W) (tol : W) (g : Graph W)
    (n : Nat) :
    ∀ (cur : Point) (l : List (Package W)), n = l.length →
      List.Perm (optimize_delivery_order_aux d tol g n cur l) l := by
  induction n with
  | zero =>
    intro cur l hl
    cases l with
    | nil => rw [optimize_delivery_order_aux]
    | cons x xs => exact absurd hl (by simp)
  | succ n ih =>
    intro cur l hl
    rw [optimize_delivery_order_aux]
    cases ha : argminWith (fun p => route_opt_distance d tol g cur p.pickup_pos) l with
    | none =>
      rw [argminWith_none _ l ha] at hl
      exact absurd hl (by simp)
    | some ip =>
      obtain ⟨hlt, hget⟩ := argminWith_spec _ l ip ha
      have hlen : n = (l.eraseIdx ip.1).length := by
        rw [List.length_eraseIdx_of_lt hlt]
        omega
      exact (List.Perm.trans
        (List.Perm.cons ip.2 (ih _ (l.eraseIdx ip.1) hlen))
        (get_cons_eraseIdx_perm l ip.1 ip.2 hget).symm)

theorem optimize_delivery_order_perm (d : Point → Point → W) (tol : W)
    (g : Graph W) (pkgs : List (Package W)) (startPos : Point) :
    List.Perm (optimize_delivery_order d tol g pkgs startPos) pkgs := by
  rw [optimize_delivery_order]
  by_cases h0 : pkgs.isEmpty = true
  · rw [if_pos h0, List.isEmpty_iff.mp h0]
  · rw [if_neg h0]
    by_cases h1 : pkgs.length = 1
    · rw [if_pos h1]
    · rw [if_neg h1]
      exact optimize_aux_perm d tol g pkgs.length startPos pkgs rfl

/-- C2: for every non-empty package list (with known dropoffs) and start
    position: with at most 6 packages, optimize_delivery_order_bruteforce
    returns a permutation of the input whose total route distance is the
    global minimum over all permutations, and it is the first minimum in
    the permutation enumeration order (everything enumerated before it is
    strictly worse); with more than 6 packages it returns exactly the
    result of optimize_delivery_order (no error: the function is total);
    and in all cases its total route distance is never strictly larger
    than that of optimize_delivery_order on the same input. -/
theorem C2_bruteforce_optimal (g : Graph ℝ) (pkgs : List (Package ℝ))
    (startPos : Point) (h1 : pkgs ≠ [])
    (h2 : ∀ p ∈ pkgs, p.dropoff_pos ≠ none) :
    (pkgs.length ≤ 6 →
      List.Perm (optimize_delivery_order_bruteforceE g pkgs startPos) pkgs ∧
      (∀ l', List.Perm l' pkgs →
        calculate_route_distanceE g
            (optimize_delivery_order_bruteforceE g pkgs startPos) startPos ≤
          calculate_route_distanceE g l' startPos) ∧
      (∃ pre post, permutationsPy pkgs =
          pre ++ optimize_delivery_order_bruteforceE g pkgs startPos :: post ∧
        ∀ l' ∈ pre,
          calculate_route_distanceE g
              (optimize_delivery_order_bruteforceE g pkgs startPos) startPos <
            calculate_route_distanceE g l' startPos)) ∧
    (6 < pkgs.length →
      optimize_delivery_order_bruteforceE g pkgs startPos =
        optimize_delivery_orderE g pkgs startPos) ∧
    calculate_route_distanceE g
        (optimize_delivery_order_bruteforceE g pkgs startPos) startPos ≤
      calculate_route_distanceE g (optimize_delivery_orderE g pkgs startPos)
        startPos := by
  by_cases h6 : 6 < pkgs.length
  · have heq : optimize_delivery_order_bruteforceE g pkgs startPos =
        optimize_delivery_orderE g pkgs startPos := by
      rw [optimize_delivery_order_bruteforceE, optimize_delivery_order_bruteforce,
        if_neg (by simp [h1]), if_neg (by omega), if_pos h6]
      rfl
    exact ⟨fun hle => absurd h6 (by omega), fun _ => heq, by rw [heq]⟩
  · by_cases hlen1 : pkgs.length = 1
    · obtain ⟨p, rfl⟩ := List.length_eq_one.mp hlen1
      have heqb : optimize_delivery_order_bruteforceE g [p] startPos = [p] := by
        rw [optimize_delivery_order_bruteforceE, optimize_delivery_order_bruteforce,
          if_neg (by simp), if_pos (by simp)]
      have heqh : optimize_delivery_orderE g [p] startPos = [p] := by
        rw [optimize_delivery_orderE, optimize_delivery_order,
          if_neg (by simp), if_pos (by simp)]
      refine ⟨fun _ => ⟨by rw [heqb], ?_, ?_⟩,
        fun hcon => absurd hcon (by simp), by rw [heqb, heqh]⟩
      · intro l' hperm
        rw [heqb, List.perm_singleton.mp hperm]
      · refine ⟨[], [], ?_, by simp⟩
        rw [heqb]
        rfl
    · have hne : permutationsPy pkgs ≠ [] := by
        intro hcon
        have hm := permutationsPy_complete pkgs pkgs (List.Perm.refl _)
        rw [hcon] at hm
        exact List.not_mem_nil _ hm
      obtain ⟨r, pre, post, hfold, hsplit, hpre, hmin⟩ :=
        foldMin_top (W := ℝ)
          (fun perm => calculate_route_distance euclidean_distance (1 / 10) g
            perm startPos)
          (permutationsPy pkgs) hne pkgs
      have heqb : optimize_delivery_order_bruteforceE g pkgs startPos = r := by
        rw [optimize_delivery_order_bruteforceE, optimize_delivery_order_bruteforce,
          if_neg (by simp [h1]), if_neg hlen1, if_neg h6]
        exact hfold
      have hrmem : r ∈ permutationsPy pkgs := by
        rw [hsplit]
        exact List.mem_append.mpr (Or.inr (List.mem_cons_self _ _))
      refine ⟨fun _ => ⟨?_, ?_, ?_⟩, fun hcon => absurd hcon h6, ?_⟩
      · rw [heqb]
        exact permutationsPy_sound pkgs r hrmem
      · intro l' hl'
        rw [heqb]
        exact hmin l' (permutationsPy_complete pkgs l' hl')
      · refine ⟨pre, post, ?_, ?_⟩
        · rw [heqb]
          exact hsplit
        · intro l' hl'
          rw [heqb]
          exact hpre l' hl'
      · rw [heqb]
        exact hmin (optimize_delivery_orderE g pkgs startPos)
          (permutationsPy_complete pkgs _
            (optimize_delivery_order_perm euclidean_distance (1 / 10) g pkgs
              startPos))

/-- C2 witness: the theorem applied to a concrete two-package input. -/
theorem C2_witness :
    (([⟨1, (0, 0), some (1, 0), 100, false⟩,
       ⟨2, (3, 0), some (4, 0), 100, false⟩] : List (Package ℝ)) ≠ []) ∧
    (∀ p ∈ ([⟨1, (0, 0), some (1, 0), 100, false⟩,
       ⟨2, (3, 0), some (4, 0), 100, false⟩] : List (Package ℝ)),
      p.dropoff_pos ≠ none) ∧
    (6 < ([⟨1, (0, 0), some (1, 0), 100, false⟩,
       ⟨2, (3, 0), some (4, 0), 100, false⟩] : List (Package ℝ)).length →
      optimize_delivery_order_bruteforceE ⟨[], []⟩
        [⟨1, (0, 0), some (1, 0), 100, false⟩,
         ⟨2, (3, 0), some (4, 0), 100, false⟩] (0, 0) =
      optimize_delivery_orderE ⟨[], []⟩
        [⟨1, (0, 0), some (1, 0), 100, false⟩,
         ⟨2, (3, 0), some (4, 0), 100, false⟩] (0, 0)) ∧
    calculate_route_distanceE ⟨[], []⟩
        (optimize_delivery_order_bruteforceE ⟨[], []⟩
          [⟨1, (0, 0), some (1, 0), 100, false⟩,
           ⟨2, (3, 0), some (4, 0), 100, false⟩] (0, 0)) (0, 0) ≤
      calculate_route_distanceE ⟨[], []⟩
        (optimize_delivery_orderE ⟨[], []⟩
          [⟨1, (0, 0), some (1, 0), 100, false⟩,
           ⟨2, (3, 0), some (4, 0), 100, false⟩] (0, 0)) (0, 0) :=
  ⟨by simp, by simp, (C2_bruteforce_optimal ⟨[], []⟩ _ (0, 0) (by simp)
      (by simp)).2.1,
    (C2_bruteforce_optimal ⟨[], []⟩ _ (0, 0) (by simp) (by simp)).2.2⟩

/-- C3 witness: the characterization applied at a concrete catalog. -/
theorem C3_witness :
    ∃ picks : List (Nat × Package ℝ),
      select_packages_greedyE ⟨[], []⟩
          [(1, ⟨1, (0, 0), some (1, 0), 100, false⟩)] (0, 0) 3 =
        picks.map Prod.snd ∧
      GreedyChain (fun pos pkg => calculate_package_profitE ⟨[], []⟩ pkg pos)
        (([(1, ⟨1, (0, 0), some (1, 0), 100, false⟩)] : Catalog ℝ).map Prod.snd)
        3 (0, 0) [] picks ∧
      (picks.map Prod.fst).Nodup ∧
      picks.length ≤ 3 ∧
      (picks.length < 3 →
        ∀ ip, IsCand (([(1, ⟨1, (0, 0), some (1, 0), 100, false⟩)] :
            Catalog ℝ).map Prod.snd) (finalState (0, 0) [] picks).2 ip →
          ¬ 0 < calculate_package_profitE ⟨[], []⟩ ip.2
            (finalState (0, 0) [] picks).1) :=
  C3_select_packages_greedy ⟨[], []⟩
    [(1, ⟨1, (0, 0), some (1, 0), 100, false⟩)] (0, 0) 3
